import Mathlib

/-! The class `storage::MapFilesDownloader`.

A shallow embedding of `storage/map_files_downloader.cpp`.

The class keeps a list of mirror servers (`m_serversList`), a latch saying that a
servers-list request is outstanding (`m_isServersListRequested`), a queue of countries
waiting for the servers list (`m_quarantine`) and at most one raw file request
(`m_fileRequest`).  Every member function becomes a function on an explicit state.

What the class does to its collaborators (the virtual `Download`, the platform task
runner, `RequestT::Get`, the chunk callback) is recorded in a trace of `Effect`s, in the
order in which the calls are made.  Work handed to the platform and not yet run is kept
in the state as data: the tasks posted by `RunServersListAsync`, each with the callback
it captured.
-/

namespace storage

/-! ## Data model -/

abbrev CountryId := String

abbrev ServersList := List String

/-- A country waiting to be downloaded: its id and what the downloader needs to fetch it. -/
structure QueuedCountry where
  countryId : CountryId
  fileName : String
  dataVersion : Nat
deriving DecidableEq, Repr

/-- Modelled from the spec: the class `Queue` behind `m_quarantine`
(`storage/downloader_queue_universal.hpp`) is not part of the translated sources.  The
spec describes it as an ordered container of queued requests keyed by request id, with
insertion order preserved for replay. -/
structure Queue where
  m_queue : List QueuedCountry
deriving DecidableEq, Repr

/-- Modelled from the spec: `Queue::IsEmpty`, the is-empty check of the quarantine. -/
def Queue.IsEmpty (q : Queue) : Bool := q.m_queue.isEmpty

/-- Modelled from the spec: `Queue::Append`, which puts the request behind the ones
already waiting. -/
def Queue.Append (q : Queue) (country : QueuedCountry) : Queue :=
  { m_queue := q.m_queue ++ [country] }

/-- Modelled from the spec: `Queue::Remove`, remove-by-id; it takes out the entry with
that id and does nothing when there is none. -/
def Queue.Remove (q : Queue) (id : CountryId) : Queue :=
  { m_queue := q.m_queue.eraseP (fun c => c.countryId == id) }

/-- Modelled from the spec: `Queue::Clear`, which drops every waiting request. -/
def Queue.Clear (_q : Queue) : Queue := { m_queue := [] }

/-- Modelled from the spec: `Queue::ForEachCountry`, which visits the entries in
insertion order; `fn` acts on the state that is threaded through the visit. -/
def Queue.ForEachCountry {σ : Type} (q : Queue) (fn : σ → QueuedCountry → σ) (init : σ) : σ :=
  q.m_queue.foldl fn init

/-- The chunk callback of `DownloadAsString`: it is given the received buffer and says
whether the request is to be kept.  It is taken to be a function of the buffer: what the
caller does inside it is outside this class. -/
abbrev ChunkCallback := String → Bool

/-- The handle held by `m_fileRequest`: the absolute url the request was issued to and
the completion callback it captured. -/
structure RequestT where
  url : String
  callback : ChunkCallback

/-- The object behind `m_downloadingPolicy`, reduced to the answer it gives. -/
structure DownloadingPolicy where
  allowed : Bool
deriving DecidableEq, Repr

/-- The callback moved into `RunServersListAsync`.  The source has two of them: the
lambda of `DownloadMapFile`, which replays the quarantine, and `doDownload` of
`DownloadAsString` with the url, flag and chunk callback it captured. -/
inductive ServersListCallback where
  | replayQuarantine
  | doDownload (url : String) (firstPass : Bool) (callback : ChunkCallback)

/-- Calls made to the collaborators of the class, as they appear in the trace. -/
inductive Effect where
  /-- The virtual `Download(queuedCountry)`. -/
  | Download (country : QueuedCountry)
  /-- The call `GetPlatform().RunTask(Platform::Thread::Network, ...)` of
  `RunServersListAsync`: a servers-list fetch is started. -/
  | RunTask
  /-- The call `RequestT::Get(url, ...)`: a transport request is issued to `url`. -/
  | RequestGet (url : String)
  /-- The chunk callback is invoked with a buffer. -/
  | Callback (buffer : String)
  /-- The call `m_serversList.back()` evaluated on an empty vector. -/
  | BackOfEmpty
deriving DecidableEq, Repr

/-- The state of a `MapFilesDownloader` together with what it has handed to its
environment.  The fields `m_...` are the members of the class; `tasks` are the
servers-list tasks posted to the network thread and not yet completed, oldest first;
`trace` is the list of collaborator calls made so far. -/
structure MapFilesDownloader where
  m_serversList : ServersList
  m_isServersListRequested : Bool
  m_quarantine : Queue
  m_fileRequest : Option RequestT
  m_downloadingPolicy : Option DownloadingPolicy
  m_subscribers : List Nat
  tasks : List ServersListCallback
  trace : List Effect

/-- A freshly constructed downloader: no servers, nothing requested, nothing queued. -/
def MapFilesDownloader.initial : MapFilesDownloader :=
  { m_serversList := []
    m_isServersListRequested := false
    m_quarantine := { m_queue := [] }
    m_fileRequest := none
    m_downloadingPolicy := none
    m_subscribers := []
    tasks := []
    trace := [] }

/-! ## Member functions -/

section Members

/- The collaborator `url::Join` of `coding/url.hpp`, which is not among the translated
   sources, is taken as given. -/
variable (Join : String → String → String)

/-- The pure virtual `Download`: the call is recorded. -/
def Download (self : MapFilesDownloader) (queuedCountry : QueuedCountry) : MapFilesDownloader :=
  { self with trace := self.trace ++ [Effect.Download queuedCountry] }

/-- `MapFilesDownloader::RunServersListAsync`: sets the latch and posts the task that
will fetch the servers list and then run `callback`. -/
def RunServersListAsync (self : MapFilesDownloader) (callback : ServersListCallback) :
    MapFilesDownloader :=
  { self with
    m_isServersListRequested := true
    tasks := self.tasks ++ [callback]
    trace := self.trace ++ [Effect.RunTask] }

/-- `MapFilesDownloader::DownloadMapFile`. -/
def DownloadMapFile (self : MapFilesDownloader) (queuedCountry : QueuedCountry) :
    MapFilesDownloader :=
  if !self.m_serversList.isEmpty then
    Download self queuedCountry
  else
    let self1 := { self with m_quarantine := self.m_quarantine.Append queuedCountry }
    if !self1.m_isServersListRequested then
      RunServersListAsync self1 ServersListCallback.replayQuarantine
    else
      self1

/-- The lambda that `DownloadMapFile` passes to `RunServersListAsync`: every queued
country is handed to `Download`, then the quarantine is cleared. -/
def replayQuarantine (self : MapFilesDownloader) : MapFilesDownloader :=
  let self1 := self.m_quarantine.ForEachCountry Download self
  { self1 with m_quarantine := self1.m_quarantine.Clear }

/-- The lambda `doDownload` of `DownloadAsString`. -/
def doDownload (self : MapFilesDownloader) (url : String) (firstPass : Bool)
    (callback : ChunkCallback) : MapFilesDownloader :=
  if (self.m_fileRequest.isSome && firstPass) || self.m_serversList.isEmpty then
    self
  else
    match self.m_serversList.getLast? with
    | some server =>
      { self with
        m_fileRequest := some { url := Join server url, callback := callback }
        trace := self.trace ++ [Effect.RequestGet (Join server url)] }
    | none => { self with trace := self.trace ++ [Effect.BackOfEmpty] }

/-- The completion lambda that `doDownload` gives to `RequestT::Get`; `buffer` is
`request.GetData()`. -/
def onRequestCompleted (self : MapFilesDownloader) (callback : ChunkCallback)
    (buffer : String) : MapFilesDownloader :=
  let deleteRequest := true
  let (self1, deleteRequest) :=
    if !buffer.isEmpty then
      ({ self with trace := self.trace ++ [Effect.Callback buffer] }, !callback buffer)
    else
      (self, deleteRequest)
  if deleteRequest then { self1 with m_fileRequest := none } else self1

/-- `MapFilesDownloader::DownloadAsString`. -/
def DownloadAsString (self : MapFilesDownloader) (url : String) (firstPass : Bool)
    (callback : ChunkCallback) : MapFilesDownloader :=
  if !self.m_serversList.isEmpty then
    doDownload Join self url firstPass callback
  else if !self.m_isServersListRequested then
    RunServersListAsync self (ServersListCallback.doDownload url firstPass callback)
  else
    self

/-- Runs a callback that was moved into `RunServersListAsync`. -/
def callServersListCallback (self : MapFilesDownloader) :
    ServersListCallback → MapFilesDownloader
  | ServersListCallback.replayQuarantine => replayQuarantine self
  | ServersListCallback.doDownload url firstPass callback =>
    doDownload Join self url firstPass callback

/-- The lambda that `RunServersListAsync` gives to `GetServersList`: it stores the list,
runs the captured callback and resets the latch. -/
def onServersList (self : MapFilesDownloader) (callback : ServersListCallback)
    (serversList : ServersList) : MapFilesDownloader :=
  let self1 := { self with m_serversList := serversList }
  let self2 := callServersListCallback Join self1 callback
  { self2 with m_isServersListRequested := false }

/-- The oldest posted servers-list task completes: `GetServersList` hands `serversList`
to the lambda of `RunServersListAsync`.  The list is whatever the callback is given, an
empty one included.  With no task posted nothing happens. -/
def ServersListReceived (self : MapFilesDownloader) (serversList : ServersList) :
    MapFilesDownloader :=
  match self.tasks with
  | [] => self
  | callback :: rest => onServersList Join { self with tasks := rest } callback serversList

/-- The transport request held by `m_fileRequest` completes with `buffer`.  With no
request held nothing happens. -/
def RequestCompleted (self : MapFilesDownloader) (buffer : String) : MapFilesDownloader :=
  match self.m_fileRequest with
  | none => self
  | some request => onRequestCompleted self request.callback buffer

/-- `MapFilesDownloader::Remove`. -/
def Remove (self : MapFilesDownloader) (id : CountryId) : MapFilesDownloader :=
  if self.m_quarantine.IsEmpty then
    self
  else
    { self with m_quarantine := self.m_quarantine.Remove id }

/-- `MapFilesDownloader::Clear`. -/
def Clear (self : MapFilesDownloader) : MapFilesDownloader :=
  { self with m_quarantine := self.m_quarantine.Clear }

/-- `MapFilesDownloader::GetQueue`. -/
def GetQueue (self : MapFilesDownloader) : Queue := self.m_quarantine

/-- `MapFilesDownloader::Subscribe`. -/
def Subscribe (self : MapFilesDownloader) (subscriber : Nat) : MapFilesDownloader :=
  { self with m_subscribers := self.m_subscribers ++ [subscriber] }

/-- `MapFilesDownloader::UnsubscribeAll`. -/
def UnsubscribeAll (self : MapFilesDownloader) : MapFilesDownloader :=
  { self with m_subscribers := [] }

/-- `MapFilesDownloader::SetServersList`. -/
def SetServersList (self : MapFilesDownloader) (serversList : ServersList) :
    MapFilesDownloader :=
  { self with m_serversList := serversList }

/-- `MapFilesDownloader::SetDownloadingPolicy`; `none` is the null pointer. -/
def SetDownloadingPolicy (self : MapFilesDownloader) (policy : Option DownloadingPolicy) :
    MapFilesDownloader :=
  { self with m_downloadingPolicy := policy }

/-- `MapFilesDownloader::IsDownloadingAllowed`. -/
def IsDownloadingAllowed (self : MapFilesDownloader) : Bool :=
  match self.m_downloadingPolicy with
  | none => true
  | some policy => policy.allowed

/-- `MapFilesDownloader::MakeUrlList`. -/
def MakeUrlList (self : MapFilesDownloader) (relativeUrl : String) : List String :=
  self.m_serversList.foldl (fun urls server => urls ++ [Join server relativeUrl]) []

/-- `MapFilesDownloader::LoadServersList`, from the list `urls` that
`downloader::GetServersList` parsed out of the response: `CHECK(!urls.empty(), ())` ends
the process, which is the result `none`. -/
def LoadServersList (urls : List String) : Option ServersList :=
  if !urls.isEmpty then some urls else none

/-- `MapFilesDownloader::GetServersList` as run by the posted task, whose callback is the
lambda of `RunServersListAsync`: the callback is called with what `LoadServersList`
returns.  When `LoadServersList` ends the process there is no state afterwards. -/
def GetServersList (self : MapFilesDownloader) (urls : List String) :
    Option MapFilesDownloader :=
  match LoadServersList urls with
  | some serversList => some (ServersListReceived Join self serversList)
  | none => none

/-- The lambda that `DownloadMapFile` passes to `RunServersListAsync`, with a call
`DownloadMapFile(arriving)` executed in the middle of it: after `ForEachCountry` has
visited the first `visited` entries and before it visits the next one.  The visit then
goes on over the rest of the queue, and `Clear` follows. -/
def replayQuarantineWithArrival (self : MapFilesDownloader) (visited : Nat)
    (arriving : QueuedCountry) : MapFilesDownloader :=
  let self1 := (self.m_quarantine.m_queue.take visited).foldl Download self
  let self2 := DownloadMapFile self1 arriving
  let self3 := (self2.m_quarantine.m_queue.drop visited).foldl Download self2
  { self3 with m_quarantine := self3.m_quarantine.Clear }

/-- The lambda that `RunServersListAsync` gives to `GetServersList`, for the callback of
`DownloadMapFile`, with a `DownloadMapFile(arriving)` call executed in the middle of the
replay. -/
def onServersListWithArrival (self : MapFilesDownloader) (serversList : ServersList)
    (visited : Nat) (arriving : QueuedCountry) : MapFilesDownloader :=
  let self1 := { self with m_serversList := serversList }
  let self2 := replayQuarantineWithArrival self1 visited arriving
  { self2 with m_isServersListRequested := false }

/-! ## Events -/

/-- What can happen to a downloader: a call of one of its public member functions, or
the completion of work it handed to the platform. -/
inductive Op where
  | DownloadMapFile (queuedCountry : QueuedCountry)
  | DownloadAsString (url : String) (firstPass : Bool) (callback : ChunkCallback)
  | Remove (id : CountryId)
  | Clear
  | SetServersList (serversList : ServersList)
  | SetDownloadingPolicy (policy : Option DownloadingPolicy)
  | Subscribe (subscriber : Nat)
  | UnsubscribeAll
  | ServersListReceived (serversList : ServersList)
  | RequestCompleted (buffer : String)

/-- One event applied to a state. -/
def step (self : MapFilesDownloader) : Op → MapFilesDownloader
  | Op.DownloadMapFile queuedCountry => DownloadMapFile self queuedCountry
  | Op.DownloadAsString url firstPass callback => DownloadAsString Join self url firstPass callback
  | Op.Remove id => Remove self id
  | Op.Clear => Clear self
  | Op.SetServersList serversList => SetServersList self serversList
  | Op.SetDownloadingPolicy policy => SetDownloadingPolicy self policy
  | Op.Subscribe subscriber => Subscribe self subscriber
  | Op.UnsubscribeAll => UnsubscribeAll self
  | Op.ServersListReceived serversList => ServersListReceived Join self serversList
  | Op.RequestCompleted buffer => RequestCompleted self buffer

/-- A sequence of events applied from left to right. -/
def run (self : MapFilesDownloader) (ops : List Op) : MapFilesDownloader :=
  ops.foldl (step Join) self

end Members

/-- A join used in the concrete examples: base and path separated by a slash. -/
def sampleJoin (base path : String) : String := base ++ "/" ++ path

/-- The calls that ask for a download: `DownloadMapFile` and `DownloadAsString`. -/
def Op.isSubmission : Op → Bool
  | Op.DownloadMapFile _ => true
  | Op.DownloadAsString _ _ _ => true
  | _ => false

/-- The completion of the transport request held in `m_fileRequest`. -/
def Op.isRequestCompleted : Op → Bool
  | Op.RequestCompleted _ => true
  | _ => false

/-- The events that assign to `m_serversList`: `SetServersList` and the completion of a
servers-list task. -/
def Op.assignsServersList : Op → Bool
  | Op.SetServersList _ => true
  | Op.ServersListReceived _ => true
  | _ => false

/-- The call that attaches or detaches a downloading policy. -/
def Op.isSetDownloadingPolicy : Op → Bool
  | Op.SetDownloadingPolicy _ => true
  | _ => false

/-- Number of times `m_serversList.back()` has been evaluated on an empty list. -/
def backsOfEmpty (self : MapFilesDownloader) : Nat :=
  self.trace.count Effect.BackOfEmpty

/-- Number of servers-list fetches started so far. -/
def fetchesStarted (self : MapFilesDownloader) : Nat :=
  self.trace.count Effect.RunTask

/-- The latch is held exactly when a servers-list task is outstanding, and there is
never more than one. -/
def LatchInvariant (self : MapFilesDownloader) : Prop :=
  self.tasks.length ≤ 1 ∧ (self.m_isServersListRequested = true ↔ self.tasks.length = 1)

/-- The urls of the transport requests issued so far, oldest first. -/
def requestsIssued (self : MapFilesDownloader) : List String :=
  self.trace.filterMap fun e =>
    match e with
    | Effect.RequestGet url => some url
    | _ => none

/-! ## Basic facts about the member functions -/

theorem foldl_Download (countries : List QueuedCountry) (self : MapFilesDownloader) :
    countries.foldl Download self =
      { self with trace := self.trace ++ countries.map Effect.Download } := by
  induction countries generalizing self with
  | nil => simp
  | cons c cs ih => simp [List.foldl_cons, ih, Download]

theorem replayQuarantine_eq (self : MapFilesDownloader) :
    replayQuarantine self =
      { self with
        m_quarantine := { m_queue := [] }
        trace := self.trace ++ self.m_quarantine.m_queue.map Effect.Download } := by
  simp [replayQuarantine, Queue.ForEachCountry, Queue.Clear, foldl_Download]

theorem DownloadMapFile_unresolved_first (self : MapFilesDownloader) (c : QueuedCountry)
    (hservers : self.m_serversList = []) (hlatch : self.m_isServersListRequested = false) :
    DownloadMapFile self c =
      { self with
        m_quarantine := { m_queue := self.m_quarantine.m_queue ++ [c] }
        m_isServersListRequested := true
        tasks := self.tasks ++ [ServersListCallback.replayQuarantine]
        trace := self.trace ++ [Effect.RunTask] } := by
  simp [DownloadMapFile, hservers, hlatch, RunServersListAsync, Queue.Append]

theorem DownloadMapFile_unresolved_next (self : MapFilesDownloader) (c : QueuedCountry)
    (hservers : self.m_serversList = []) (hlatch : self.m_isServersListRequested = true) :
    DownloadMapFile self c =
      { self with m_quarantine := { m_queue := self.m_quarantine.m_queue ++ [c] } } := by
  simp [DownloadMapFile, hservers, hlatch, Queue.Append]

theorem foldl_DownloadMapFile_unresolved_next (cs : List QueuedCountry)
    (self : MapFilesDownloader)
    (hservers : self.m_serversList = []) (hlatch : self.m_isServersListRequested = true) :
    cs.foldl DownloadMapFile self =
      { self with m_quarantine := { m_queue := self.m_quarantine.m_queue ++ cs } } := by
  induction cs generalizing self with
  | nil => simp
  | cons c cs ih =>
    rw [List.foldl_cons, DownloadMapFile_unresolved_next self c hservers hlatch, ih]
    · simp
    · exact hservers
    · exact hlatch

/-! ## C1 -/

/-- C1: requests r1..rn with distinct ids are submitted through `DownloadMapFile` to a
downloader with no servers, no outstanding resolution and an empty quarantine, and
nothing else happens in between.  The first submission starts the only resolution, no
`Download` is made before it completes, and when it completes with a non-empty servers
list the completion calls `Download` on exactly r1..rn, once each and in submission
order, and leaves the quarantine empty. -/
theorem C1_replay_in_submission_order (Join : String → String → String)
    (self : MapFilesDownloader) (requests : List QueuedCountry) (serversList : ServersList)
    (_hne : requests ≠ [])
    (_hids : (requests.map QueuedCountry.countryId).Nodup)
    (hservers : self.m_serversList = [])
    (hlatch : self.m_isServersListRequested = false)
    (htasks : self.tasks = [])
    (hquarantine : self.m_quarantine.m_queue = [])
    (_hresolved : serversList ≠ []) :
    (requests.foldl DownloadMapFile self).trace = self.trace ++ [Effect.RunTask] ∧
    (requests.foldl DownloadMapFile self).tasks = [ServersListCallback.replayQuarantine] ∧
    (ServersListReceived Join (requests.foldl DownloadMapFile self) serversList).trace =
      (requests.foldl DownloadMapFile self).trace ++ requests.map Effect.Download ∧
    (ServersListReceived Join (requests.foldl DownloadMapFile self)
      serversList).m_quarantine.m_queue = [] := by
  cases requests with
  | nil => exact absurd rfl _hne
  | cons r rs =>
    rw [List.foldl_cons, DownloadMapFile_unresolved_first self r hservers hlatch,
      foldl_DownloadMapFile_unresolved_next]
    · simp [ServersListReceived, onServersList, callServersListCallback, replayQuarantine_eq,
        htasks, hquarantine]
    · exact hservers
    · rfl

theorem C1_replay_in_submission_order_witness :
    (ServersListReceived sampleJoin
      ([(⟨"A", "a.mwm", 1⟩ : QueuedCountry), ⟨"B", "b.mwm", 1⟩].foldl DownloadMapFile
        MapFilesDownloader.initial) ["m1"]).trace =
      ([(⟨"A", "a.mwm", 1⟩ : QueuedCountry), ⟨"B", "b.mwm", 1⟩].foldl DownloadMapFile
        MapFilesDownloader.initial).trace ++
      [Effect.Download ⟨"A", "a.mwm", 1⟩, Effect.Download ⟨"B", "b.mwm", 1⟩] :=
  (C1_replay_in_submission_order sampleJoin MapFilesDownloader.initial
    [⟨"A", "a.mwm", 1⟩, ⟨"B", "b.mwm", 1⟩] ["m1"] (by decide) (by decide) rfl rfl rfl rfl
    (by decide)).2.2.1

/-! ## C2 -/

/-- C2: `DownloadAsString` starts the resolution, a `DownloadMapFile` made while it is
outstanding puts country A into the quarantine, and the resolution completes with the
servers list m1.  The completion issues the string request and nothing else: A is not
handed to `Download` and stays in the quarantine, and a later `DownloadMapFile` of B is
downloaded at once while A is still waiting. -/
theorem C2_quarantine_not_replayed_after_string_resolution :
    (run sampleJoin MapFilesDownloader.initial
      [Op.DownloadAsString "u" true (fun _ => true),
       Op.DownloadMapFile ⟨"A", "a.mwm", 1⟩,
       Op.ServersListReceived ["m1"]]).trace = [Effect.RunTask, Effect.RequestGet "m1/u"] ∧
    (run sampleJoin MapFilesDownloader.initial
      [Op.DownloadAsString "u" true (fun _ => true),
       Op.DownloadMapFile ⟨"A", "a.mwm", 1⟩,
       Op.ServersListReceived ["m1"]]).m_quarantine.m_queue = [⟨"A", "a.mwm", 1⟩] ∧
    (run sampleJoin MapFilesDownloader.initial
      [Op.DownloadAsString "u" true (fun _ => true),
       Op.DownloadMapFile ⟨"A", "a.mwm", 1⟩,
       Op.ServersListReceived ["m1"]]).m_serversList = ["m1"] ∧
    (run sampleJoin MapFilesDownloader.initial
      [Op.DownloadAsString "u" true (fun _ => true),
       Op.DownloadMapFile ⟨"A", "a.mwm", 1⟩,
       Op.ServersListReceived ["m1"],
       Op.DownloadMapFile ⟨"B", "b.mwm", 1⟩]).trace =
      [Effect.RunTask, Effect.RequestGet "m1/u", Effect.Download ⟨"B", "b.mwm", 1⟩] ∧
    (run sampleJoin MapFilesDownloader.initial
      [Op.DownloadAsString "u" true (fun _ => true),
       Op.DownloadMapFile ⟨"A", "a.mwm", 1⟩,
       Op.ServersListReceived ["m1"],
       Op.DownloadMapFile ⟨"B", "b.mwm", 1⟩]).m_quarantine.m_queue = [⟨"A", "a.mwm", 1⟩] := by
  decide

/-! ## C3 -/

theorem count_RunTask_map_Download (countries : List QueuedCountry) :
    (countries.map Effect.Download).count Effect.RunTask = 0 := by
  induction countries with
  | nil => rfl
  | cons c cs ih => simp [List.count_cons, ih]

theorem doDownload_tasks (Join : String → String → String) (self : MapFilesDownloader)
    (url : String) (firstPass : Bool) (callback : ChunkCallback) :
    (doDownload Join self url firstPass callback).tasks = self.tasks ∧
    (doDownload Join self url firstPass callback).m_isServersListRequested =
      self.m_isServersListRequested ∧
    fetchesStarted (doDownload Join self url firstPass callback) = fetchesStarted self := by
  unfold doDownload fetchesStarted
  split
  · simp
  · split <;> simp

theorem callServersListCallback_tasks (Join : String → String → String)
    (self : MapFilesDownloader) (callback : ServersListCallback) :
    (callServersListCallback Join self callback).tasks = self.tasks ∧
    fetchesStarted (callServersListCallback Join self callback) = fetchesStarted self := by
  cases callback with
  | replayQuarantine =>
    simp [callServersListCallback, replayQuarantine_eq, fetchesStarted,
      count_RunTask_map_Download]
  | doDownload url firstPass callback =>
    exact ⟨(doDownload_tasks Join self url firstPass callback).1,
      (doDownload_tasks Join self url firstPass callback).2.2⟩

theorem LatchInvariant_step (Join : String → String → String) (self : MapFilesDownloader)
    (op : Op) (h : LatchInvariant self) : LatchInvariant (step Join self op) := by
  obtain ⟨hlen, hiff⟩ := h
  cases op with
  | DownloadMapFile c =>
    simp only [step, DownloadMapFile]
    split
    · exact ⟨hlen, hiff⟩
    · split
      · rename_i hl
        have hl2 : self.m_isServersListRequested = false := by simpa using hl
        have ht : self.tasks = [] := by
          cases hts : self.tasks with
          | nil => rfl
          | cons a as =>
            have : self.tasks.length = 1 := by
              rw [hts] at hlen ⊢
              simp at hlen ⊢
              exact hlen
            rw [hiff.2 this] at hl2
            cases hl2
        simp [LatchInvariant, RunServersListAsync, ht]
      · exact ⟨hlen, hiff⟩
  | DownloadAsString url firstPass callback =>
    simp only [step, DownloadAsString]
    split
    · obtain ⟨h1, h2, _⟩ := doDownload_tasks Join self url firstPass callback
      simp only [LatchInvariant, h1, h2]
      exact ⟨hlen, hiff⟩
    · split
      · rename_i hl
        have hl2 : self.m_isServersListRequested = false := by simpa using hl
        have ht : self.tasks = [] := by
          cases hts : self.tasks with
          | nil => rfl
          | cons a as =>
            have : self.tasks.length = 1 := by
              rw [hts] at hlen ⊢
              simp at hlen ⊢
              exact hlen
            rw [hiff.2 this] at hl2
            cases hl2
        simp [LatchInvariant, RunServersListAsync, ht]
      · exact ⟨hlen, hiff⟩
  | Remove id =>
    simp only [step, Remove]
    split
    · exact ⟨hlen, hiff⟩
    · exact ⟨hlen, hiff⟩
  | Clear => exact ⟨hlen, hiff⟩
  | SetServersList l => exact ⟨hlen, hiff⟩
  | SetDownloadingPolicy p => exact ⟨hlen, hiff⟩
  | Subscribe sub => exact ⟨hlen, hiff⟩
  | UnsubscribeAll => exact ⟨hlen, hiff⟩
  | ServersListReceived l =>
    simp only [step, ServersListReceived]
    cases hts : self.tasks with
    | nil =>
      simp only
      exact ⟨hlen, hiff⟩
    | cons cb rest =>
      have hrest : rest = [] := by
        rw [hts] at hlen
        simp at hlen
        exact hlen
      subst hrest
      simp [LatchInvariant, onServersList, (callServersListCallback_tasks Join _ cb).1]
  | RequestCompleted buffer =>
    simp only [step, RequestCompleted]
    split
    · exact ⟨hlen, hiff⟩
    · simp only [LatchInvariant, onRequestCompleted]
      split <;> split <;> simp_all

theorem LatchInvariant_run (Join : String → String → String) (ops : List Op)
    (self : MapFilesDownloader) (h : LatchInvariant self) :
    LatchInvariant (run Join self ops) := by
  induction ops generalizing self with
  | nil => exact h
  | cons op ops ih => exact ih _ (LatchInvariant_step Join self op h)

theorem fetchesStarted_step (Join : String → String → String) (self : MapFilesDownloader)
    (op : Op) (h : fetchesStarted (step Join self op) ≠ fetchesStarted self) :
    self.m_isServersListRequested = false ∧
    (step Join self op).m_isServersListRequested = true ∧
    fetchesStarted (step Join self op) = fetchesStarted self + 1 := by
  cases op with
  | DownloadMapFile c =>
    simp only [step, DownloadMapFile] at h ⊢
    split at h
    · simp [Download, fetchesStarted] at h
    · rename_i hs
      simp only [hs]
      split at h
      · rename_i hl
        simp only [hl]
        simp only [Bool.not_eq_true, Bool.not_eq_eq_eq_not, Bool.not_true] at hl
        simp [RunServersListAsync, fetchesStarted, hl]
      · simp [fetchesStarted] at h
  | DownloadAsString url firstPass callback =>
    simp only [step, DownloadAsString] at h ⊢
    split at h
    · exact absurd (doDownload_tasks Join self url firstPass callback).2.2 h
    · rename_i hs
      simp only [hs]
      split at h
      · rename_i hl
        simp only [hl]
        simp only [Bool.not_eq_true, Bool.not_eq_eq_eq_not, Bool.not_true] at hl
        simp [RunServersListAsync, fetchesStarted, hl]
      · exact absurd rfl h
  | Remove id =>
    simp only [step, Remove] at h
    split at h <;> exact absurd rfl h
  | Clear => exact absurd rfl h
  | SetServersList l => exact absurd rfl h
  | SetDownloadingPolicy p => exact absurd rfl h
  | Subscribe sub => exact absurd rfl h
  | UnsubscribeAll => exact absurd rfl h
  | ServersListReceived l =>
    simp only [step, ServersListReceived] at h
    split at h
    · exact absurd rfl h
    · rename_i cb rest hts
      exfalso
      apply h
      have := (callServersListCallback_tasks Join
        { self with tasks := rest, m_serversList := l } cb).2
      simpa [onServersList, fetchesStarted] using this
  | RequestCompleted buffer =>
    simp only [step, RequestCompleted] at h
    split at h
    · exact absurd rfl h
    · exfalso
      apply h
      simp only [onRequestCompleted, fetchesStarted]
      split <;> split <;> simp_all

theorem submission_step (Join : String → String → String) (self : MapFilesDownloader)
    (op : Op) (hop : op.isSubmission = true) (hservers : self.m_serversList = []) :
    (step Join self op).m_serversList = [] ∧
    (step Join self op).m_isServersListRequested = true ∧
    fetchesStarted (step Join self op) =
      fetchesStarted self + (if self.m_isServersListRequested then 0 else 1) := by
  cases op with
  | DownloadMapFile c =>
    cases hl : self.m_isServersListRequested <;>
      simp [step, DownloadMapFile, hservers, hl, RunServersListAsync, fetchesStarted]
  | DownloadAsString url firstPass callback =>
    cases hl : self.m_isServersListRequested <;>
      simp [step, DownloadAsString, hservers, hl, RunServersListAsync, fetchesStarted]
  | Remove id => simp [Op.isSubmission] at hop
  | Clear => simp [Op.isSubmission] at hop
  | SetServersList l => simp [Op.isSubmission] at hop
  | SetDownloadingPolicy p => simp [Op.isSubmission] at hop
  | Subscribe sub => simp [Op.isSubmission] at hop
  | UnsubscribeAll => simp [Op.isSubmission] at hop
  | ServersListReceived l => simp [Op.isSubmission] at hop
  | RequestCompleted buffer => simp [Op.isSubmission] at hop

theorem submission_run (Join : String → String → String) (calls : List Op)
    (self : MapFilesDownloader) (hcalls : ∀ op ∈ calls, op.isSubmission = true)
    (hservers : self.m_serversList = []) :
    (run Join self calls).m_serversList = [] ∧
    (run Join self calls).m_isServersListRequested =
      (self.m_isServersListRequested || !calls.isEmpty) ∧
    fetchesStarted (run Join self calls) =
      fetchesStarted self +
        (if self.m_isServersListRequested || calls.isEmpty then 0 else 1) := by
  induction calls generalizing self with
  | nil => simp [run, hservers]
  | cons op rest ih =>
    obtain ⟨h1, h2, h3⟩ :=
      submission_step Join self op (hcalls op (List.mem_cons_self _ _)) hservers
    obtain ⟨k1, k2, k3⟩ :=
      ih (step Join self op) (fun o ho => hcalls o (List.mem_cons_of_mem _ ho)) h1
    have hrun : run Join self (op :: rest) = run Join (step Join self op) rest := rfl
    rw [hrun]
    refine ⟨k1, ?_, ?_⟩
    · rw [k2, h2]
      simp
    · rw [k3, h2, h3]
      simp

/-- C4: in every state reached from a fresh downloader at most one servers-list task is
outstanding and the latch is held exactly when there is one.  From such a state with an
empty servers list, any non-empty sequence of `DownloadMapFile` and `DownloadAsString`
calls leaves exactly one resolution outstanding with the latch held, and starts one
fetch if none was outstanding before and none otherwise.  Whatever the event, a fetch
is started only from a state whose latch is false, and the latch is true afterwards. -/
theorem C4_single_resolution_in_flight (Join : String → String → String)
    (ops calls : List Op)
    (hcalls : ∀ op ∈ calls, op.isSubmission = true) (hne : calls ≠ [])
    (hservers : (run Join MapFilesDownloader.initial ops).m_serversList = []) :
    (run Join MapFilesDownloader.initial ops).tasks.length ≤ 1 ∧
    ((run Join MapFilesDownloader.initial ops).m_isServersListRequested = true ↔
      (run Join MapFilesDownloader.initial ops).tasks.length = 1) ∧
    (run Join (run Join MapFilesDownloader.initial ops) calls).tasks.length = 1 ∧
    (run Join (run Join MapFilesDownloader.initial ops) calls).m_isServersListRequested
      = true ∧
    fetchesStarted (run Join (run Join MapFilesDownloader.initial ops) calls) =
      fetchesStarted (run Join MapFilesDownloader.initial ops) +
        (if (run Join MapFilesDownloader.initial ops).m_isServersListRequested
          then 0 else 1) ∧
    (∀ (self : MapFilesDownloader) (op : Op),
      fetchesStarted (step Join self op) ≠ fetchesStarted self →
        self.m_isServersListRequested = false ∧
        (step Join self op).m_isServersListRequested = true ∧
        fetchesStarted (step Join self op) = fetchesStarted self + 1) := by
  have hinit : LatchInvariant MapFilesDownloader.initial := by
    simp [LatchInvariant, MapFilesDownloader.initial]
  have h0 := LatchInvariant_run Join ops _ hinit
  have h1 := LatchInvariant_run Join calls _ h0
  obtain ⟨_, k2, k3⟩ := submission_run Join calls _ hcalls hservers
  have hcalls_ne : calls.isEmpty = false := by
    cases calls with
    | nil => exact absurd rfl hne
    | cons a as => rfl
  have hlatch : (run Join (run Join MapFilesDownloader.initial ops)
      calls).m_isServersListRequested = true := by
    rw [k2, hcalls_ne]
    simp
  refine ⟨h0.1, h0.2, h1.2.1 hlatch, hlatch, ?_, fun self op h => fetchesStarted_step Join self op h⟩
  rw [k3, hcalls_ne]
  simp

theorem C4_single_resolution_in_flight_witness :
    (run sampleJoin (run sampleJoin MapFilesDownloader.initial [Op.Clear])
      [Op.DownloadMapFile ⟨"A", "a.mwm", 1⟩, Op.DownloadAsString "u" true (fun _ => true),
       Op.DownloadMapFile ⟨"B", "b.mwm", 1⟩]).tasks.length = 1 ∧
    fetchesStarted (run sampleJoin (run sampleJoin MapFilesDownloader.initial [Op.Clear])
      [Op.DownloadMapFile ⟨"A", "a.mwm", 1⟩, Op.DownloadAsString "u" true (fun _ => true),
       Op.DownloadMapFile ⟨"B", "b.mwm", 1⟩]) =
      fetchesStarted (run sampleJoin MapFilesDownloader.initial [Op.Clear]) +
        (if (run sampleJoin MapFilesDownloader.initial [Op.Clear]).m_isServersListRequested
          then 0 else 1) :=
  have h := C4_single_resolution_in_flight sampleJoin [Op.Clear]
    [Op.DownloadMapFile ⟨"A", "a.mwm", 1⟩, Op.DownloadAsString "u" true (fun _ => true),
     Op.DownloadMapFile ⟨"B", "b.mwm", 1⟩]
    (by simp [Op.isSubmission]) (by simp) rfl
  ⟨h.2.2.1, h.2.2.2.2.1⟩

/-! ## C5 -/

/-- C5: in a state whose servers list is not empty, `DownloadMapFile` of a request D
calls `Download` on D, once and at once, and changes nothing else: the quarantine, the
latch and the outstanding tasks are as before and no fetch is started. -/
theorem C5_ready_downloads_immediately (self : MapFilesDownloader)
    (queuedCountry : QueuedCountry) (hready : self.m_serversList ≠ []) :
    DownloadMapFile self queuedCountry =
      { self with trace := self.trace ++ [Effect.Download queuedCountry] } ∧
    (DownloadMapFile self queuedCountry).m_quarantine = self.m_quarantine ∧
    (DownloadMapFile self queuedCountry).m_isServersListRequested =
      self.m_isServersListRequested ∧
    (DownloadMapFile self queuedCountry).tasks = self.tasks ∧
    fetchesStarted (DownloadMapFile self queuedCountry) = fetchesStarted self := by
  have h : DownloadMapFile self queuedCountry =
      { self with trace := self.trace ++ [Effect.Download queuedCountry] } := by
    simp [DownloadMapFile, Download, hready]
  rw [h]
  simp [fetchesStarted]

theorem C5_ready_downloads_immediately_witness :
    (DownloadMapFile (SetServersList MapFilesDownloader.initial ["m1"])
      ⟨"D", "d.mwm", 1⟩).trace = [Effect.Download ⟨"D", "d.mwm", 1⟩] ∧
    (DownloadMapFile (SetServersList MapFilesDownloader.initial ["m1"])
      ⟨"D", "d.mwm", 1⟩).m_quarantine.m_queue = [] :=
  have h := C5_ready_downloads_immediately (SetServersList MapFilesDownloader.initial ["m1"])
    ⟨"D", "d.mwm", 1⟩ (by decide)
  ⟨by rw [h.1]; rfl, by rw [h.2.1]; rfl⟩

/-! ## C6 -/

theorem eraseP_id_prefix (pre post : List QueuedCountry) (entry : QueuedCountry)
    (x : CountryId) (hentry : entry.countryId = x) (hpre : ∀ c ∈ pre, c.countryId ≠ x) :
    (pre ++ entry :: post).eraseP (fun c => c.countryId == x) = pre ++ post := by
  induction pre with
  | nil => simp [hentry]
  | cons a as ih =>
    have ha : a.countryId ≠ x := hpre a (List.mem_cons_self _ _)
    have has : ∀ c ∈ as, c.countryId ≠ x := fun c hc => hpre c (List.mem_cons_of_mem _ hc)
    simp [List.eraseP_cons_of_neg, ha, ih has]

theorem eraseP_id_not_mem (queue : List QueuedCountry) (x : CountryId)
    (hids : (queue.map QueuedCountry.countryId).Nodup) :
    ∀ c ∈ queue.eraseP (fun c => c.countryId == x), c.countryId ≠ x := by
  induction queue with
  | nil => simp
  | cons a as ih =>
    rw [List.map_cons, List.nodup_cons] at hids
    by_cases ha : a.countryId = x
    · rw [List.eraseP_cons_of_pos (by simpa using ha)]
      intro c hc hcx
      apply hids.1
      rw [ha, ← hcx]
      exact List.mem_map_of_mem _ hc
    · rw [List.eraseP_cons_of_neg (by simpa using ha)]
      intro c hc
      rcases List.mem_cons.1 hc with h | h
      · rw [h]
        exact ha
      · exact ih hids.2 c h

theorem Remove_eq (self : MapFilesDownloader) (x : CountryId) :
    Remove self x =
      { self with
        m_quarantine :=
          { m_queue := self.m_quarantine.m_queue.eraseP (fun c => c.countryId == x) } } := by
  unfold Remove
  split
  · rename_i h
    have hq : self.m_quarantine.m_queue = [] := by
      simpa [Queue.IsEmpty, List.isEmpty_iff] using h
    obtain ⟨_, _, ⟨queue⟩, _, _, _, _, _⟩ := self
    simp only at hq
    subst hq
    rfl
  · rfl

theorem ServersListReceived_trace (Join : String → String → String)
    (self : MapFilesDownloader) (serversList : ServersList) :
    ∃ added : List Effect,
      (ServersListReceived Join self serversList).trace = self.trace ++ added ∧
      ∀ c : QueuedCountry, Effect.Download c ∈ added → c ∈ self.m_quarantine.m_queue := by
  unfold ServersListReceived
  split
  · exact ⟨[], by simp, by simp⟩
  · rename_i cb rest hts
    cases cb with
    | replayQuarantine =>
      refine ⟨self.m_quarantine.m_queue.map Effect.Download, ?_, ?_⟩
      · simp [onServersList, callServersListCallback, replayQuarantine_eq]
      · intro c hc
        simpa using hc
    | doDownload url firstPass callback =>
      simp only [onServersList, callServersListCallback, doDownload]
      split
      · exact ⟨[], by simp, by simp⟩
      · split
        · exact ⟨[Effect.RequestGet _], rfl, by simp⟩
        · exact ⟨[Effect.BackOfEmpty], rfl, by simp⟩

/-- What `Remove(x)` does: it leaves the state as it is when no entry of the quarantine
has id x, the empty quarantine included.  When an entry has id x it takes out that entry
and keeps the others in their order, touching nothing else.  If the outstanding task
carries the replay of `DownloadMapFile` and completes with a non-empty servers list,
its completion calls `Download` on exactly the entries that remain, in order, and, ids
in the quarantine being distinct, on no request with id x.  Whichever task completes
after `Remove(x)` and whatever list it delivers, no `Download` it makes is of a request
with id x. -/
theorem Remove_then_completion (Join : String → String → String) (self : MapFilesDownloader)
    (x : CountryId) :
    ((∀ c ∈ self.m_quarantine.m_queue, c.countryId ≠ x) → Remove self x = self) ∧
    (∀ (pre post : List QueuedCountry) (entry : QueuedCountry),
      self.m_quarantine.m_queue = pre ++ entry :: post → entry.countryId = x →
      (∀ c ∈ pre, c.countryId ≠ x) →
        Remove self x = { self with m_quarantine := { m_queue := pre ++ post } }) ∧
    (∀ serversList : ServersList, serversList ≠ [] →
      self.tasks = [ServersListCallback.replayQuarantine] →
      (self.m_quarantine.m_queue.map QueuedCountry.countryId).Nodup →
        (ServersListReceived Join (Remove self x) serversList).trace =
          self.trace ++ (Remove self x).m_quarantine.m_queue.map Effect.Download ∧
        (∀ c : QueuedCountry, c.countryId = x →
          Effect.Download c ∉ (Remove self x).m_quarantine.m_queue.map Effect.Download) ∧
        (ServersListReceived Join (Remove self x) serversList).m_quarantine.m_queue = []) ∧
    (∀ serversList : ServersList,
      (self.m_quarantine.m_queue.map QueuedCountry.countryId).Nodup →
        ∀ c : QueuedCountry, c.countryId = x →
          Effect.Download c ∉
            (ServersListReceived Join (Remove self x) serversList).trace.drop
              self.trace.length) := by
  refine ⟨?_, ?_, ?_, ?_⟩
  · intro h
    rw [Remove_eq, List.eraseP_of_forall_not]
    intro c hc
    simpa using h c hc
  · intro pre post entry hq hentry hpre
    rw [Remove_eq, hq, eraseP_id_prefix pre post entry x hentry hpre]
  · intro serversList _ htasks hids
    refine ⟨?_, ?_, ?_⟩
    · simp [Remove_eq, ServersListReceived, htasks, onServersList, callServersListCallback,
        replayQuarantine_eq]
    · intro c hc hmem
      rw [Remove_eq] at hmem
      simp only [List.mem_map, Effect.Download.injEq] at hmem
      obtain ⟨d, hd, hdc⟩ := hmem
      subst hdc
      exact eraseP_id_not_mem _ x hids d hd hc
    · simp [Remove_eq, ServersListReceived, htasks, onServersList, callServersListCallback,
        replayQuarantine_eq]
  · intro serversList hids c hc hmem
    obtain ⟨added, htrace, hadded⟩ := ServersListReceived_trace Join (Remove self x) serversList
    have hlen : (Remove self x).trace = self.trace := by rw [Remove_eq]
    rw [htrace, hlen, List.drop_left] at hmem
    have hin := hadded c hmem
    rw [Remove_eq] at hin
    exact eraseP_id_not_mem _ x hids c hin hc

/-- C6: `DownloadAsString` starts the resolution, A and B are submitted through
`DownloadMapFile` while it is outstanding, and `Remove` takes out A, leaving exactly B
in the quarantine.  The resolution then succeeds with the list m1, also when the list
is delivered through `GetServersList`.  The completion issues the string request only:
B, the remaining entry, is not handed to `Download` and is still in the quarantine
afterwards.  When the resolution was started by `DownloadMapFile` instead, the same
completion does hand B to `Download`. -/
theorem C6_remaining_entry_not_dispatched :
    (run sampleJoin MapFilesDownloader.initial
      [Op.DownloadAsString "u" true (fun _ => true),
       Op.DownloadMapFile ⟨"A", "a.mwm", 1⟩,
       Op.DownloadMapFile ⟨"B", "b.mwm", 1⟩,
       Op.Remove "A"]).m_quarantine.m_queue = [⟨"B", "b.mwm", 1⟩] ∧
    (run sampleJoin MapFilesDownloader.initial
      [Op.DownloadAsString "u" true (fun _ => true),
       Op.DownloadMapFile ⟨"A", "a.mwm", 1⟩,
       Op.DownloadMapFile ⟨"B", "b.mwm", 1⟩,
       Op.Remove "A",
       Op.ServersListReceived ["m1"]]).trace = [Effect.RunTask, Effect.RequestGet "m1/u"] ∧
    (run sampleJoin MapFilesDownloader.initial
      [Op.DownloadAsString "u" true (fun _ => true),
       Op.DownloadMapFile ⟨"A", "a.mwm", 1⟩,
       Op.DownloadMapFile ⟨"B", "b.mwm", 1⟩,
       Op.Remove "A",
       Op.ServersListReceived ["m1"]]).m_quarantine.m_queue = [⟨"B", "b.mwm", 1⟩] ∧
    (run sampleJoin MapFilesDownloader.initial
      [Op.DownloadAsString "u" true (fun _ => true),
       Op.DownloadMapFile ⟨"A", "a.mwm", 1⟩,
       Op.DownloadMapFile ⟨"B", "b.mwm", 1⟩,
       Op.Remove "A",
       Op.ServersListReceived ["m1"]]).m_serversList = ["m1"] ∧
    (GetServersList sampleJoin
      (run sampleJoin MapFilesDownloader.initial
        [Op.DownloadAsString "u" true (fun _ => true),
         Op.DownloadMapFile ⟨"A", "a.mwm", 1⟩,
         Op.DownloadMapFile ⟨"B", "b.mwm", 1⟩,
         Op.Remove "A"]) ["m1"]).map (fun done => done.trace) =
      some [Effect.RunTask, Effect.RequestGet "m1/u"] ∧
    (run sampleJoin MapFilesDownloader.initial
      [Op.DownloadMapFile ⟨"A", "a.mwm", 1⟩,
       Op.DownloadMapFile ⟨"B", "b.mwm", 1⟩,
       Op.Remove "A",
       Op.ServersListReceived ["m1"]]).trace =
      [Effect.RunTask, Effect.Download ⟨"B", "b.mwm", 1⟩] := by
  decide

/-! ## C7 -/

theorem doDownload_issues (Join : String → String → String) (self : MapFilesDownloader)
    (url : String) (firstPass : Bool) (callback : ChunkCallback)
    (hne : self.m_serversList ≠ [])
    (hkept : (self.m_fileRequest.isSome && firstPass) = false) :
    doDownload Join self url firstPass callback =
      { self with
        m_fileRequest :=
          some { url := Join (self.m_serversList.getLast hne) url, callback := callback }
        trace := self.trace ++
          [Effect.RequestGet (Join (self.m_serversList.getLast hne) url)] } := by
  have hempty : self.m_serversList.isEmpty = false := by
    cases hs : self.m_serversList with
    | nil => exact absurd hs hne
    | cons a as => rfl
  simp only [doDownload, hkept, hempty, Bool.or_self, Bool.false_eq_true, if_false]
  rw [List.getLast?_eq_getLast _ hne]

theorem doDownload_dropped (Join : String → String → String) (self : MapFilesDownloader)
    (url : String) (callback : ChunkCallback) (hbusy : self.m_fileRequest.isSome = true) :
    doDownload Join self url true callback = self := by
  simp [doDownload, hbusy]

/-- C7, the claim as stated fails: on a fresh downloader, with no servers and no
resolution in flight, `DownloadAsString` is not a no-op: it starts a resolution, and
when that resolution delivers the list m1 the request is issued to m1/u.  With a
resolution already in flight (started by a `DownloadMapFile`) the call changes nothing,
and the completion of that resolution issues no transport request. -/
theorem C7_counterexample :
    MapFilesDownloader.initial.m_serversList = [] ∧
    MapFilesDownloader.initial.m_isServersListRequested = false ∧
    (DownloadAsString sampleJoin MapFilesDownloader.initial "u" true
      (fun _ => true)).m_isServersListRequested = true ∧
    fetchesStarted (DownloadAsString sampleJoin MapFilesDownloader.initial "u" true
      (fun _ => true)) = 1 ∧
    requestsIssued (ServersListReceived sampleJoin
      (DownloadAsString sampleJoin MapFilesDownloader.initial "u" true (fun _ => true))
      ["m1"]) = ["m1/u"] ∧
    (DownloadMapFile MapFilesDownloader.initial ⟨"A", "a.mwm", 1⟩).m_serversList = [] ∧
    (DownloadMapFile MapFilesDownloader.initial
      ⟨"A", "a.mwm", 1⟩).m_isServersListRequested = true ∧
    DownloadAsString sampleJoin (DownloadMapFile MapFilesDownloader.initial ⟨"A", "a.mwm", 1⟩)
      "u" true (fun _ => true) =
      DownloadMapFile MapFilesDownloader.initial ⟨"A", "a.mwm", 1⟩ ∧
    requestsIssued (ServersListReceived sampleJoin
      (DownloadAsString sampleJoin
        (DownloadMapFile MapFilesDownloader.initial ⟨"A", "a.mwm", 1⟩)
        "u" true (fun _ => true)) ["m1"]) = [] := by
  refine ⟨rfl, rfl, rfl, by decide, by decide, rfl, rfl, rfl, by decide⟩

/-- C7, amended: a `DownloadAsString` call is made while the servers list is empty.  If
no resolution is in flight, the call starts one with `doDownload` as its callback and
issues no transport request itself; when that resolution, the only outstanding one,
completes with a non-empty list, the request is issued to the join of the last server
and the url, unless the call is a first pass and a file request is held.  If a
resolution is in flight, the call leaves the state exactly as it was, so that no
transport request is ever issued for it. -/
theorem C7_unresolved_string_request (Join : String → String → String)
    (self : MapFilesDownloader) (url : String) (firstPass : Bool) (callback : ChunkCallback)
    (hservers : self.m_serversList = []) :
    (self.m_isServersListRequested = false →
      (DownloadAsString Join self url firstPass callback).m_isServersListRequested = true ∧
      (DownloadAsString Join self url firstPass callback).tasks =
        self.tasks ++ [ServersListCallback.doDownload url firstPass callback] ∧
      fetchesStarted (DownloadAsString Join self url firstPass callback) =
        fetchesStarted self + 1 ∧
      requestsIssued (DownloadAsString Join self url firstPass callback) =
        requestsIssued self ∧
      (∀ (serversList : ServersList) (hne : serversList ≠ []), self.tasks = [] →
        (self.m_fileRequest.isSome && firstPass) = false →
          requestsIssued (ServersListReceived Join
            (DownloadAsString Join self url firstPass callback) serversList) =
            requestsIssued self ++ [Join (serversList.getLast hne) url])) ∧
    (self.m_isServersListRequested = true →
      DownloadAsString Join self url firstPass callback = self) := by
  constructor
  · intro hlatch
    have hcall : DownloadAsString Join self url firstPass callback =
        RunServersListAsync self (ServersListCallback.doDownload url firstPass callback) := by
      simp [DownloadAsString, hservers, hlatch]
    rw [hcall]
    refine ⟨rfl, rfl, ?_, ?_, ?_⟩
    · simp [RunServersListAsync, fetchesStarted]
    · simp [RunServersListAsync, requestsIssued, List.filterMap_append]
    · intro serversList hne htasks hkept
      have hd := doDownload_issues Join
        { self with
          m_serversList := serversList
          m_isServersListRequested := true
          tasks := []
          trace := self.trace ++ [Effect.RunTask] } url firstPass callback hne hkept
      simp only [RunServersListAsync, ServersListReceived, htasks, List.nil_append,
        onServersList, callServersListCallback]
      rw [hd]
      simp [requestsIssued, List.filterMap_append]
  · intro hlatch
    simp [DownloadAsString, hservers, hlatch]

theorem C7_unresolved_string_request_witness :
    requestsIssued (ServersListReceived sampleJoin
      (DownloadAsString sampleJoin MapFilesDownloader.initial "u" true (fun _ => true))
      ["m1", "m2"]) = ["m2/u"] ∧
    DownloadAsString sampleJoin (DownloadMapFile MapFilesDownloader.initial ⟨"A", "a.mwm", 1⟩)
      "u" true (fun _ => true) =
      DownloadMapFile MapFilesDownloader.initial ⟨"A", "a.mwm", 1⟩ :=
  ⟨((C7_unresolved_string_request sampleJoin MapFilesDownloader.initial "u" true
      (fun _ => true) rfl).1 rfl).2.2.2.2 ["m1", "m2"] (by decide) rfl rfl,
   (C7_unresolved_string_request sampleJoin
      (DownloadMapFile MapFilesDownloader.initial ⟨"A", "a.mwm", 1⟩) "u" true
      (fun _ => true) rfl).2 rfl⟩

/-! ## C8 -/

theorem DownloadAsString_first_pass_busy (Join : String → String → String)
    (self : MapFilesDownloader) (url : String) (callback : ChunkCallback)
    (hbusy : self.m_fileRequest.isSome = true) :
    (DownloadAsString Join self url true callback).m_fileRequest = self.m_fileRequest ∧
    requestsIssued (DownloadAsString Join self url true callback) = requestsIssued self := by
  unfold DownloadAsString
  split
  · rw [doDownload_dropped Join self url callback hbusy]
    exact ⟨rfl, rfl⟩
  · split
    · simp [RunServersListAsync, requestsIssued, List.filterMap_append]
    · exact ⟨rfl, rfl⟩

theorem doDownload_fileRequest_isSome (Join : String → String → String)
    (self : MapFilesDownloader) (url : String) (firstPass : Bool) (callback : ChunkCallback)
    (hbusy : self.m_fileRequest.isSome = true) :
    (doDownload Join self url firstPass callback).m_fileRequest.isSome = true := by
  unfold doDownload
  split
  · exact hbusy
  · split
    · rfl
    · exact hbusy

theorem step_fileRequest_isSome (Join : String → String → String)
    (self : MapFilesDownloader) (op : Op) (hop : op.isRequestCompleted = false)
    (hbusy : self.m_fileRequest.isSome = true) :
    (step Join self op).m_fileRequest.isSome = true := by
  cases op with
  | DownloadMapFile c =>
    simp only [step, DownloadMapFile]
    split
    · exact hbusy
    · split
      · exact hbusy
      · exact hbusy
  | DownloadAsString url firstPass callback =>
    simp only [step, DownloadAsString]
    split
    · exact doDownload_fileRequest_isSome Join self url firstPass callback hbusy
    · split
      · exact hbusy
      · exact hbusy
  | Remove id =>
    simp only [step, Remove]
    split
    · exact hbusy
    · exact hbusy
  | Clear => exact hbusy
  | SetServersList l => exact hbusy
  | SetDownloadingPolicy p => exact hbusy
  | Subscribe sub => exact hbusy
  | UnsubscribeAll => exact hbusy
  | ServersListReceived l =>
    simp only [step, ServersListReceived]
    split
    · exact hbusy
    · rename_i cb rest hts
      cases cb with
      | replayQuarantine =>
        simpa [onServersList, callServersListCallback, replayQuarantine_eq] using hbusy
      | doDownload url firstPass callback =>
        exact doDownload_fileRequest_isSome Join
          { self with tasks := rest, m_serversList := l } url firstPass callback hbusy
  | RequestCompleted buffer => simp [Op.isRequestCompleted] at hop

theorem run_fileRequest_isSome (Join : String → String → String) (ops : List Op)
    (self : MapFilesDownloader) (hops : ∀ op ∈ ops, op.isRequestCompleted = false)
    (hbusy : self.m_fileRequest.isSome = true) :
    (run Join self ops).m_fileRequest.isSome = true := by
  induction ops generalizing self with
  | nil => exact hbusy
  | cons op rest ih =>
    exact ih (step Join self op) (fun o ho => hops o (List.mem_cons_of_mem _ ho))
      (step_fileRequest_isSome Join self op (hops op (List.mem_cons_self _ _)) hbusy)

/-- C8: a first-pass `DownloadAsString` made while `m_fileRequest` is set issues no
transport request and leaves `m_fileRequest` as it is.  In any state, the second of two
first-pass calls made one after the other issues no request and leaves `m_fileRequest`
unchanged.  When the servers list is known and no file request is held, the two calls
together issue exactly one request, the one of the first call; when the servers list is
empty and nothing is outstanding, the first call is deferred, the second is skipped, and
the completion of the resolution with a non-empty list issues exactly one request.
Whatever happens between the two calls, as long as the held request does not complete,
`m_fileRequest` stays set and the second first-pass call issues nothing. -/
theorem C8_single_flight_first_pass (Join : String → String → String)
    (self : MapFilesDownloader) (url1 url2 : String) (callback1 callback2 : ChunkCallback) :
    (self.m_fileRequest.isSome = true →
      (DownloadAsString Join self url1 true callback1).m_fileRequest = self.m_fileRequest ∧
      requestsIssued (DownloadAsString Join self url1 true callback1) =
        requestsIssued self) ∧
    ((DownloadAsString Join (DownloadAsString Join self url1 true callback1) url2 true
        callback2).m_fileRequest =
      (DownloadAsString Join self url1 true callback1).m_fileRequest ∧
     requestsIssued (DownloadAsString Join (DownloadAsString Join self url1 true callback1)
        url2 true callback2) =
      requestsIssued (DownloadAsString Join self url1 true callback1)) ∧
    (∀ hne : self.m_serversList ≠ [], self.m_fileRequest = none →
      requestsIssued (DownloadAsString Join (DownloadAsString Join self url1 true callback1)
        url2 true callback2) =
        requestsIssued self ++ [Join (self.m_serversList.getLast hne) url1]) ∧
    (∀ (serversList : ServersList) (hne : serversList ≠ []),
      self.m_serversList = [] → self.m_isServersListRequested = false → self.tasks = [] →
      self.m_fileRequest = none →
        requestsIssued (ServersListReceived Join
          (DownloadAsString Join (DownloadAsString Join self url1 true callback1)
            url2 true callback2) serversList) =
          requestsIssued self ++ [Join (serversList.getLast hne) url1]) ∧
    (∀ between : List Op, (∀ op ∈ between, op.isRequestCompleted = false) →
      (DownloadAsString Join self url1 true callback1).m_fileRequest.isSome = true →
        (DownloadAsString Join (run Join (DownloadAsString Join self url1 true callback1)
          between) url2 true callback2).m_fileRequest =
          (run Join (DownloadAsString Join self url1 true callback1) between).m_fileRequest ∧
        requestsIssued (DownloadAsString Join
          (run Join (DownloadAsString Join self url1 true callback1) between)
          url2 true callback2) =
          requestsIssued (run Join (DownloadAsString Join self url1 true callback1)
            between)) := by
  have hsecond :
      (DownloadAsString Join (DownloadAsString Join self url1 true callback1) url2 true
          callback2).m_fileRequest =
        (DownloadAsString Join self url1 true callback1).m_fileRequest ∧
      requestsIssued (DownloadAsString Join (DownloadAsString Join self url1 true callback1)
          url2 true callback2) =
        requestsIssued (DownloadAsString Join self url1 true callback1) := by
    by_cases hs : self.m_serversList = []
    · by_cases hl : self.m_isServersListRequested = true
      · have h1 : DownloadAsString Join self url1 true callback1 = self := by
          simp [DownloadAsString, hs, hl]
        have h2 : DownloadAsString Join self url2 true callback2 = self := by
          simp [DownloadAsString, hs, hl]
        rw [h1, h2]
        exact ⟨rfl, rfl⟩
      · have hl2 : self.m_isServersListRequested = false := by simpa using hl
        have h1 : DownloadAsString Join self url1 true callback1 =
            RunServersListAsync self (ServersListCallback.doDownload url1 true callback1) := by
          simp [DownloadAsString, hs, hl2]
        rw [h1]
        simp [DownloadAsString, RunServersListAsync, hs]
    · have hempty : self.m_serversList.isEmpty = false := by
        cases hq : self.m_serversList with
        | nil => exact absurd hq hs
        | cons a as => rfl
      have h1 : DownloadAsString Join self url1 true callback1 =
          doDownload Join self url1 true callback1 := by
        simp [DownloadAsString, hempty]
      have hbusy : (DownloadAsString Join self url1 true callback1).m_fileRequest.isSome
          = true := by
        rw [h1]
        cases hf : self.m_fileRequest with
        | some r =>
          rw [doDownload_dropped Join self url1 callback1 (by simp [hf])]
          simp [hf]
        | none =>
          rw [doDownload_issues Join self url1 true callback1 hs (by simp [hf])]
          rfl
      exact DownloadAsString_first_pass_busy Join _ url2 callback2 hbusy
  refine ⟨fun hbusy => DownloadAsString_first_pass_busy Join self url1 callback1 hbusy,
    hsecond, ?_, ?_, fun between hbetween hbusy =>
      DownloadAsString_first_pass_busy Join _ url2 callback2
        (run_fileRequest_isSome Join between _ hbetween hbusy)⟩
  · intro hne hfree
    rw [hsecond.2]
    have hempty : self.m_serversList.isEmpty = false := by
      cases hq : self.m_serversList with
      | nil => exact absurd hq hne
      | cons a as => rfl
    have h1 : DownloadAsString Join self url1 true callback1 =
        doDownload Join self url1 true callback1 := by
      simp [DownloadAsString, hempty]
    rw [h1, doDownload_issues Join self url1 true callback1 hne (by simp [hfree])]
    simp [requestsIssued, List.filterMap_append]
  · intro serversList hne hs hl htasks hfree
    have h1 : DownloadAsString Join self url1 true callback1 =
        RunServersListAsync self (ServersListCallback.doDownload url1 true callback1) := by
      simp [DownloadAsString, hs, hl]
    have h2 : DownloadAsString Join
        (RunServersListAsync self (ServersListCallback.doDownload url1 true callback1))
        url2 true callback2 =
        RunServersListAsync self (ServersListCallback.doDownload url1 true callback1) := by
      simp [DownloadAsString, RunServersListAsync, hs]
    have hd := doDownload_issues Join
      { self with
        m_serversList := serversList
        m_isServersListRequested := true
        tasks := []
        trace := self.trace ++ [Effect.RunTask] } url1 true callback1 hne (by simp [hfree])
    rw [h1, h2]
    simp only [RunServersListAsync, ServersListReceived, htasks, List.nil_append,
      onServersList, callServersListCallback]
    rw [hd]
    simp [requestsIssued, List.filterMap_append]

theorem C8_single_flight_first_pass_witness :
    requestsIssued (DownloadAsString sampleJoin
      (DownloadAsString sampleJoin (SetServersList MapFilesDownloader.initial ["m1", "m2"])
        "u" true (fun _ => true)) "v" true (fun _ => true)) = ["m2/u"] ∧
    requestsIssued (DownloadAsString sampleJoin
      (DownloadAsString sampleJoin (SetServersList MapFilesDownloader.initial ["m1", "m2"])
        "u" true (fun _ => true)) "v" true (fun _ => true)) =
      requestsIssued (DownloadAsString sampleJoin
        (SetServersList MapFilesDownloader.initial ["m1", "m2"]) "u" true (fun _ => true)) ∧
    requestsIssued (ServersListReceived sampleJoin
      (DownloadAsString sampleJoin
        (DownloadAsString sampleJoin MapFilesDownloader.initial "u" true (fun _ => true))
        "v" true (fun _ => true)) ["m1"]) = ["m1/u"] ∧
    requestsIssued (DownloadAsString sampleJoin
      (run sampleJoin
        (DownloadAsString sampleJoin (SetServersList MapFilesDownloader.initial ["m1", "m2"])
          "u" true (fun _ => true))
        [Op.DownloadMapFile ⟨"A", "a.mwm", 1⟩, Op.Clear]) "v" true (fun _ => true)) =
      requestsIssued (run sampleJoin
        (DownloadAsString sampleJoin (SetServersList MapFilesDownloader.initial ["m1", "m2"])
          "u" true (fun _ => true))
        [Op.DownloadMapFile ⟨"A", "a.mwm", 1⟩, Op.Clear]) :=
  ⟨(C8_single_flight_first_pass sampleJoin
      (SetServersList MapFilesDownloader.initial ["m1", "m2"]) "u" "v" (fun _ => true)
      (fun _ => true)).2.2.1 (by decide) rfl,
   ((C8_single_flight_first_pass sampleJoin
      (DownloadAsString sampleJoin (SetServersList MapFilesDownloader.initial ["m1", "m2"])
        "u" true (fun _ => true)) "v" "w" (fun _ => true) (fun _ => true)).1 rfl).2,
   (C8_single_flight_first_pass sampleJoin MapFilesDownloader.initial "u" "v"
      (fun _ => true) (fun _ => true)).2.2.2.1 ["m1"] (by decide) rfl rfl rfl rfl,
   ((C8_single_flight_first_pass sampleJoin
      (SetServersList MapFilesDownloader.initial ["m1", "m2"]) "u" "v" (fun _ => true)
      (fun _ => true)).2.2.2.2 [Op.DownloadMapFile ⟨"A", "a.mwm", 1⟩, Op.Clear]
      (by simp [Op.isRequestCompleted]) rfl).2⟩

/-! ## C9 -/

/-- C9: the transport request held in `m_fileRequest` completes with a buffer.  The
chunk callback is invoked, once and with that buffer, exactly when the buffer is not
empty; `m_fileRequest` is released exactly when the buffer is empty or the callback
returns false, and the same request is kept exactly when the callback was invoked and
returned true.  Nothing else in the state changes. -/
theorem C9_request_completion (self : MapFilesDownloader) (request : RequestT)
    (buffer : String) (hheld : self.m_fileRequest = some request) :
    (RequestCompleted self buffer).trace =
      self.trace ++ (if buffer.isEmpty then [] else [Effect.Callback buffer]) ∧
    (Effect.Callback buffer ∈ (RequestCompleted self buffer).trace.drop self.trace.length ↔
      buffer.isEmpty = false) ∧
    ((RequestCompleted self buffer).m_fileRequest = none ↔
      (buffer.isEmpty = true ∨ request.callback buffer = false)) ∧
    ((RequestCompleted self buffer).m_fileRequest = some request ↔
      (buffer.isEmpty = false ∧ request.callback buffer = true)) ∧
    RequestCompleted self buffer =
      { self with
        m_fileRequest := (RequestCompleted self buffer).m_fileRequest
        trace := (RequestCompleted self buffer).trace } := by
  cases hb : buffer.isEmpty <;> cases hc : request.callback buffer <;>
    simp [RequestCompleted, onRequestCompleted, hheld, hb, hc]

theorem C9_request_completion_witness :
    (RequestCompleted
      (DownloadAsString sampleJoin (SetServersList MapFilesDownloader.initial ["m1"]) "u"
        true (fun b => b == "more")) "").trace = [Effect.RequestGet "m1/u"] ∧
    (RequestCompleted
      (DownloadAsString sampleJoin (SetServersList MapFilesDownloader.initial ["m1"]) "u"
        true (fun b => b == "more")) "more").trace =
      [Effect.RequestGet "m1/u", Effect.Callback "more"] :=
  ⟨(C9_request_completion
      (DownloadAsString sampleJoin (SetServersList MapFilesDownloader.initial ["m1"]) "u"
        true (fun b => b == "more")) ⟨"m1/u", fun b => b == "more"⟩ "" rfl).1,
   (C9_request_completion
      (DownloadAsString sampleJoin (SetServersList MapFilesDownloader.initial ["m1"]) "u"
        true (fun b => b == "more")) ⟨"m1/u", fun b => b == "more"⟩ "more" rfl).1⟩

/-! ## C10 -/

/-- C10: with a non-empty servers list, a `DownloadAsString` call that is not dropped
(it is not a first pass made while a file request is held) issues exactly one transport
request, to the join of the last server of the list and the url, and holds it in
`m_fileRequest`.  The same is true of a deferred call when its resolution completes
with a non-empty list: the request goes to the last server of the delivered list. -/
theorem C10_request_goes_to_last_server (Join : String → String → String)
    (self : MapFilesDownloader) (url : String) (firstPass : Bool) (callback : ChunkCallback)
    (hkept : (self.m_fileRequest.isSome && firstPass) = false) :
    (∀ hne : self.m_serversList ≠ [],
      (DownloadAsString Join self url firstPass callback).trace =
        self.trace ++ [Effect.RequestGet (Join (self.m_serversList.getLast hne) url)] ∧
      requestsIssued (DownloadAsString Join self url firstPass callback) =
        requestsIssued self ++ [Join (self.m_serversList.getLast hne) url] ∧
      (DownloadAsString Join self url firstPass callback).m_fileRequest =
        some { url := Join (self.m_serversList.getLast hne) url, callback := callback }) ∧
    (∀ (serversList : ServersList) (hne : serversList ≠ []) (rest : List ServersListCallback),
      self.tasks = ServersListCallback.doDownload url firstPass callback :: rest →
        (ServersListReceived Join self serversList).trace =
          self.trace ++ [Effect.RequestGet (Join (serversList.getLast hne) url)] ∧
        requestsIssued (ServersListReceived Join self serversList) =
          requestsIssued self ++ [Join (serversList.getLast hne) url]) := by
  constructor
  · intro hne
    have hempty : self.m_serversList.isEmpty = false := by
      cases hq : self.m_serversList with
      | nil => exact absurd hq hne
      | cons a as => rfl
    have h1 : DownloadAsString Join self url firstPass callback =
        doDownload Join self url firstPass callback := by
      simp [DownloadAsString, hempty]
    rw [h1, doDownload_issues Join self url firstPass callback hne hkept]
    simp [requestsIssued, List.filterMap_append]
  · intro serversList hne rest htasks
    have hd := doDownload_issues Join
      { self with m_serversList := serversList, tasks := rest } url firstPass callback hne hkept
    simp only [ServersListReceived, htasks, onServersList, callServersListCallback]
    rw [hd]
    simp [requestsIssued, List.filterMap_append]

theorem C10_request_goes_to_last_server_witness :
    (DownloadAsString sampleJoin (SetServersList MapFilesDownloader.initial ["m1", "m2", "m3"])
      "u" false (fun _ => true)).trace = [Effect.RequestGet "m3/u"] :=
  ((C10_request_goes_to_last_server sampleJoin
    (SetServersList MapFilesDownloader.initial ["m1", "m2", "m3"]) "u" false (fun _ => true)
    rfl).1 (by decide)).1

/-! ## C11 -/

theorem step_latch_clear (Join : String → String → String) (self : MapFilesDownloader)
    (op : Op) (hop : op.isSubmission = false)
    (hlatch : self.m_isServersListRequested = false) :
    (step Join self op).m_isServersListRequested = false := by
  cases op with
  | DownloadMapFile c => simp [Op.isSubmission] at hop
  | DownloadAsString url firstPass callback => simp [Op.isSubmission] at hop
  | Remove id =>
    simp only [step, Remove]
    split
    · exact hlatch
    · exact hlatch
  | Clear => exact hlatch
  | SetServersList l => exact hlatch
  | SetDownloadingPolicy p => exact hlatch
  | Subscribe sub => exact hlatch
  | UnsubscribeAll => exact hlatch
  | ServersListReceived l =>
    simp only [step, ServersListReceived]
    split
    · exact hlatch
    · rfl
  | RequestCompleted buffer =>
    simp only [step, RequestCompleted]
    split
    · exact hlatch
    · simp only [onRequestCompleted]
      split <;> split <;> simp_all

theorem run_latch_clear (Join : String → String → String) (ops : List Op)
    (self : MapFilesDownloader) (hops : ∀ op ∈ ops, op.isSubmission = false)
    (hlatch : self.m_isServersListRequested = false) :
    (run Join self ops).m_isServersListRequested = false := by
  induction ops generalizing self with
  | nil => exact hlatch
  | cons op rest ih =>
    exact ih (step Join self op) (fun o ho => hops o (List.mem_cons_of_mem _ ho))
      (step_latch_clear Join self op (hops op (List.mem_cons_self _ _)) hlatch)

/-- C11: when an outstanding servers-list task completes, whatever callback it carries
(the quarantine replay of `DownloadMapFile` or the `doDownload` of `DownloadAsString`)
and whatever list it delivers, empty or not, `m_isServersListRequested` is false
afterwards.  It stays false until the next `DownloadMapFile` or `DownloadAsString`, and
if the servers list is empty at that call, the call starts a new fetch and sets the
latch again. -/
theorem C11_latch_released_on_completion (Join : String → String → String)
    (self : MapFilesDownloader) (callback : ServersListCallback)
    (rest : List ServersListCallback) (serversList : ServersList)
    (htasks : self.tasks = callback :: rest) :
    (ServersListReceived Join self serversList).m_isServersListRequested = false ∧
    (∀ (between : List Op) (op : Op),
      (∀ o ∈ between, o.isSubmission = false) → op.isSubmission = true →
      (run Join (ServersListReceived Join self serversList) between).m_serversList = [] →
        (run Join (ServersListReceived Join self serversList)
          between).m_isServersListRequested = false ∧
        fetchesStarted (step Join
          (run Join (ServersListReceived Join self serversList) between) op) =
          fetchesStarted (run Join (ServersListReceived Join self serversList) between) + 1 ∧
        (step Join (run Join (ServersListReceived Join self serversList) between)
          op).m_isServersListRequested = true) := by
  have hdone : (ServersListReceived Join self serversList).m_isServersListRequested = false := by
    simp [ServersListReceived, htasks, onServersList]
  refine ⟨hdone, ?_⟩
  intro between op hbetween hop hservers
  have hclear := run_latch_clear Join between _ hbetween hdone
  obtain ⟨_, h2, h3⟩ := submission_step Join _ op hop hservers
  refine ⟨hclear, ?_, h2⟩
  rw [h3, hclear]
  simp

theorem C11_latch_released_on_completion_witness :
    (ServersListReceived sampleJoin
      (DownloadMapFile MapFilesDownloader.initial ⟨"A", "a.mwm", 1⟩)
      []).m_isServersListRequested = false ∧
    fetchesStarted (step sampleJoin
      (run sampleJoin
        (ServersListReceived sampleJoin
          (DownloadMapFile MapFilesDownloader.initial ⟨"A", "a.mwm", 1⟩) [])
        [Op.Clear]) (Op.DownloadAsString "u" true (fun _ => true))) =
      fetchesStarted (run sampleJoin
        (ServersListReceived sampleJoin
          (DownloadMapFile MapFilesDownloader.initial ⟨"A", "a.mwm", 1⟩) [])
        [Op.Clear]) + 1 :=
  have h := C11_latch_released_on_completion sampleJoin
    (DownloadMapFile MapFilesDownloader.initial ⟨"A", "a.mwm", 1⟩)
    ServersListCallback.replayQuarantine [] [] rfl
  ⟨h.1, (h.2 [Op.Clear] (Op.DownloadAsString "u" true (fun _ => true))
    (by simp [Op.isSubmission]) rfl rfl).2.1⟩

/-! ## C12 -/

/-- C12, the claim as stated fails: for a response that parses to no mirror url,
`LoadServersList` returns no list, because `CHECK(!urls.empty(), ())` ends the process,
and the task that was to deliver the list to the outstanding callback delivers
nothing. -/
theorem C12_counterexample :
    LoadServersList [] = none ∧
    (GetServersList sampleJoin
      (DownloadMapFile MapFilesDownloader.initial ⟨"A", "a.mwm", 1⟩) []).isNone = true := by
  decide

/-- C12, amended: for every response that parses to at least one mirror url,
`LoadServersList` returns exactly the parsed list and `GetServersList` delivers it to the
completion callback.  For a response that parses to no url the `CHECK` fails: no list is
returned and the callback is not delivered.  A list that `LoadServersList` returns is
never empty. -/
theorem C12_load_servers_list (Join : String → String → String)
    (self : MapFilesDownloader) (urls : List String) :
    (urls ≠ [] →
      LoadServersList urls = some urls ∧
      GetServersList Join self urls = some (ServersListReceived Join self urls)) ∧
    (urls = [] → LoadServersList urls = none ∧ GetServersList Join self urls = none) ∧
    (∀ serversList : ServersList, LoadServersList urls = some serversList →
      serversList = urls ∧ serversList ≠ []) := by
  cases urls with
  | nil => simp [LoadServersList, GetServersList]
  | cons a as => simp [LoadServersList, GetServersList]

theorem C12_load_servers_list_witness :
    LoadServersList ["m1", "m2"] = some ["m1", "m2"] ∧
    LoadServersList [] = none :=
  ⟨((C12_load_servers_list sampleJoin MapFilesDownloader.initial ["m1", "m2"]).1
      (by decide)).1,
   ((C12_load_servers_list sampleJoin MapFilesDownloader.initial []).2.1 rfl).1⟩

/-! ## C13 -/

/-- C13, the claim as stated fails: A and B wait in the quarantine, the resolution
succeeds with the list m1, and C is submitted after the replay has handed A to
`Download` and before it reaches B.  C is handed to `Download` at once, so the order of
the calls is A, C, B: C is dispatched before B, which was submitted before it. -/
theorem C13_counterexample :
    (onServersListWithArrival
      ([(⟨"A", "a.mwm", 1⟩ : QueuedCountry), ⟨"B", "b.mwm", 1⟩].foldl DownloadMapFile
        MapFilesDownloader.initial) ["m1"] 1 ⟨"C", "c.mwm", 1⟩).trace =
      [Effect.RunTask, Effect.Download ⟨"A", "a.mwm", 1⟩, Effect.Download ⟨"C", "c.mwm", 1⟩,
       Effect.Download ⟨"B", "b.mwm", 1⟩] := by
  decide

/-- C13, amended: a `DownloadMapFile` submission arrives while the callback of a
successful resolution replays the quarantine, after some of the entries have been
visited.  The servers list is already stored, so the submission is handed to `Download`
at once and never enters the quarantine: it is dispatched exactly once, after the
entries already visited and before the entries still to be visited, each of which is
dispatched once as well, and the quarantine is empty at the end. -/
theorem C13_arrival_during_replay (self : MapFilesDownloader) (serversList : ServersList)
    (visited : Nat) (arriving : QueuedCountry) (hne : serversList ≠ []) :
    (onServersListWithArrival self serversList visited arriving).trace =
      self.trace ++ (self.m_quarantine.m_queue.take visited).map Effect.Download ++
        [Effect.Download arriving] ++
        (self.m_quarantine.m_queue.drop visited).map Effect.Download ∧
    (onServersListWithArrival self serversList visited arriving).m_quarantine.m_queue = [] ∧
    (arriving ∉ self.m_quarantine.m_queue →
      ((onServersListWithArrival self serversList visited arriving).trace.drop
        self.trace.length).count (Effect.Download arriving) = 1) := by
  have hempty : serversList.isEmpty = false := by
    cases serversList with
    | nil => exact absurd rfl hne
    | cons a as => rfl
  have htrace : (onServersListWithArrival self serversList visited arriving).trace =
      self.trace ++ (self.m_quarantine.m_queue.take visited).map Effect.Download ++
        [Effect.Download arriving] ++
        (self.m_quarantine.m_queue.drop visited).map Effect.Download := by
    simp [onServersListWithArrival, replayQuarantineWithArrival, foldl_Download,
      DownloadMapFile, Download, hempty, Queue.Clear]
  refine ⟨htrace, ?_, ?_⟩
  · simp [onServersListWithArrival, replayQuarantineWithArrival, Queue.Clear]
  · intro hnew
    rw [htrace, List.append_assoc, List.append_assoc, List.drop_left]
    have hcount : ∀ l : List QueuedCountry, arriving ∉ l →
        (l.map Effect.Download).count (Effect.Download arriving) = 0 := by
      intro l hl
      rw [List.count_eq_zero]
      intro hmem
      simp only [List.mem_map, Effect.Download.injEq] at hmem
      obtain ⟨d, hd, hda⟩ := hmem
      exact hl (hda ▸ hd)
    rw [List.count_append, List.count_append,
      hcount _ (fun h => hnew (List.mem_of_mem_take h)),
      hcount _ (fun h => hnew (List.mem_of_mem_drop h))]
    simp

theorem C13_arrival_during_replay_witness :
    (onServersListWithArrival
      ([(⟨"A", "a.mwm", 1⟩ : QueuedCountry), ⟨"B", "b.mwm", 1⟩].foldl DownloadMapFile
        MapFilesDownloader.initial) ["m1"] 1 ⟨"C", "c.mwm", 1⟩).m_quarantine.m_queue = [] :=
  (C13_arrival_during_replay
    ([(⟨"A", "a.mwm", 1⟩ : QueuedCountry), ⟨"B", "b.mwm", 1⟩].foldl DownloadMapFile
      MapFilesDownloader.initial) ["m1"] 1 ⟨"C", "c.mwm", 1⟩ (by decide)).2.1

/-! ## C14 -/

theorem foldl_emplace_back (f : String → String) (servers : List String) (urls : List String) :
    servers.foldl (fun urls server => urls ++ [f server]) urls = urls ++ servers.map f := by
  induction servers generalizing urls with
  | nil => simp
  | cons a as ih => simp [List.foldl_cons, ih]

/-- C14: for the servers list s1..sn and a relative path p, `MakeUrlList(p)` is the list
of the joins of s1 with p up to sn with p, in the order of the servers: it has the
length of the servers list and is empty when no server is known.  The function only
reads `m_serversList`: its result is a list of urls, and two states with the same
servers list give the same result. -/
theorem C14_make_url_list (Join : String → String → String) (self : MapFilesDownloader)
    (relativeUrl : String) :
    MakeUrlList Join self relativeUrl =
      self.m_serversList.map (fun server => Join server relativeUrl) ∧
    (MakeUrlList Join self relativeUrl).length = self.m_serversList.length ∧
    MakeUrlList Join { self with m_serversList := [] } relativeUrl = [] ∧
    (∀ other : MapFilesDownloader,
      MakeUrlList Join { other with m_serversList := self.m_serversList } relativeUrl =
        MakeUrlList Join self relativeUrl) := by
  have h : ∀ s : MapFilesDownloader, MakeUrlList Join s relativeUrl =
      s.m_serversList.map (fun server => Join server relativeUrl) := by
    intro s
    simp [MakeUrlList, foldl_emplace_back (fun server => Join server relativeUrl)]
  refine ⟨h self, ?_, ?_, ?_⟩
  · rw [h self, List.length_map]
  · rw [h]
    rfl
  · intro other
    rw [h, h]

/-! ## C15 -/

theorem doDownload_frame (Join : String → String → String) (self : MapFilesDownloader)
    (url : String) (firstPass : Bool) (callback : ChunkCallback) :
    (doDownload Join self url firstPass callback).m_serversList = self.m_serversList ∧
    (doDownload Join self url firstPass callback).m_quarantine = self.m_quarantine ∧
    (doDownload Join self url firstPass callback).m_downloadingPolicy =
      self.m_downloadingPolicy ∧
    (doDownload Join self url firstPass callback).m_subscribers = self.m_subscribers := by
  unfold doDownload
  split
  · simp
  · split <;> simp

theorem callServersListCallback_frame (Join : String → String → String)
    (self : MapFilesDownloader) (callback : ServersListCallback) :
    (callServersListCallback Join self callback).m_serversList = self.m_serversList ∧
    (callServersListCallback Join self callback).m_downloadingPolicy =
      self.m_downloadingPolicy ∧
    (callServersListCallback Join self callback).m_subscribers = self.m_subscribers := by
  cases callback with
  | replayQuarantine => simp [callServersListCallback, replayQuarantine_eq]
  | doDownload url firstPass callback =>
    obtain ⟨h1, _, h3, h4⟩ := doDownload_frame Join self url firstPass callback
    exact ⟨h1, h3, h4⟩

theorem step_policy (Join : String → String → String) (self : MapFilesDownloader) (op : Op)
    (hop : op.isSetDownloadingPolicy = false) :
    (step Join self op).m_downloadingPolicy = self.m_downloadingPolicy := by
  cases op with
  | DownloadMapFile c =>
    simp only [step, DownloadMapFile]
    split
    · rfl
    · split <;> rfl
  | DownloadAsString url firstPass callback =>
    simp only [step, DownloadAsString]
    split
    · exact (doDownload_frame Join self url firstPass callback).2.2.1
    · split <;> rfl
  | Remove id =>
    simp only [step, Remove]
    split <;> rfl
  | Clear => rfl
  | SetServersList l => rfl
  | SetDownloadingPolicy p => simp [Op.isSetDownloadingPolicy] at hop
  | Subscribe sub => rfl
  | UnsubscribeAll => rfl
  | ServersListReceived l =>
    simp only [step, ServersListReceived]
    split
    · rfl
    · rename_i cb rest hts
      exact (callServersListCallback_frame Join
        { self with tasks := rest, m_serversList := l } cb).2.1
  | RequestCompleted buffer =>
    simp only [step, RequestCompleted]
    split
    · rfl
    · simp only [onRequestCompleted]
      split <;> split <;> simp_all

theorem run_policy (Join : String → String → String) (ops : List Op)
    (self : MapFilesDownloader) (hops : ∀ op ∈ ops, op.isSetDownloadingPolicy = false) :
    (run Join self ops).m_downloadingPolicy = self.m_downloadingPolicy := by
  induction ops generalizing self with
  | nil => rfl
  | cons op rest ih =>
    have h1 := step_policy Join self op (hops op (List.mem_cons_self _ _))
    have h2 := ih (step Join self op) (fun o ho => hops o (List.mem_cons_of_mem _ ho))
    exact h2.trans h1

/-- C15: `IsDownloadingAllowed` is true on a fresh downloader and after the policy has
been set to the null pointer; after a policy has been attached it is what that policy
answers.  A later `SetDownloadingPolicy` replaces the earlier one, and no other event
changes the attached policy, so the answer is always that of the policy attached
last. -/
theorem C15_is_downloading_allowed (Join : String → String → String)
    (self : MapFilesDownloader) (policy : DownloadingPolicy)
    (earlier : Option DownloadingPolicy) (ops : List Op)
    (hops : ∀ op ∈ ops, op.isSetDownloadingPolicy = false) :
    IsDownloadingAllowed MapFilesDownloader.initial = true ∧
    IsDownloadingAllowed (run Join MapFilesDownloader.initial ops) = true ∧
    IsDownloadingAllowed (run Join (SetDownloadingPolicy self none) ops) = true ∧
    IsDownloadingAllowed (run Join (SetDownloadingPolicy self (some policy)) ops) =
      policy.allowed ∧
    IsDownloadingAllowed
      (run Join (SetDownloadingPolicy (SetDownloadingPolicy self earlier) (some policy)) ops) =
      policy.allowed ∧
    IsDownloadingAllowed
      (run Join (SetDownloadingPolicy (SetDownloadingPolicy self earlier) none) ops) = true := by
  have h : ∀ s : MapFilesDownloader, IsDownloadingAllowed (run Join s ops) =
      IsDownloadingAllowed s := by
    intro s
    simp only [IsDownloadingAllowed, run_policy Join ops s hops]
  refine ⟨rfl, ?_, ?_, ?_, ?_, ?_⟩ <;> rw [h] <;> rfl

theorem C15_is_downloading_allowed_witness :
    IsDownloadingAllowed (run sampleJoin
      (SetDownloadingPolicy (SetDownloadingPolicy MapFilesDownloader.initial (some ⟨true⟩))
        (some ⟨false⟩))
      [Op.DownloadMapFile ⟨"A", "a.mwm", 1⟩, Op.ServersListReceived ["m1"]]) = false :=
  (C15_is_downloading_allowed sampleJoin MapFilesDownloader.initial ⟨false⟩ (some ⟨true⟩)
    [Op.DownloadMapFile ⟨"A", "a.mwm", 1⟩, Op.ServersListReceived ["m1"]]
    (by simp [Op.isSetDownloadingPolicy])).2.2.2.2.1

/-! ## C16 -/

/-- C16, the claim as stated fails: a policy that forbids downloading is attached, so
`IsDownloadingAllowed` is false, and the servers list is m1.  `DownloadAsString` still
issues its transport request and `DownloadMapFile` still calls `Download`; with the
same policy attached, the replay of the quarantine hands the waiting country to
`Download` as well. -/
theorem C16_counterexample :
    IsDownloadingAllowed
      (SetDownloadingPolicy (SetServersList MapFilesDownloader.initial ["m1"])
        (some ⟨false⟩)) = false ∧
    requestsIssued (DownloadAsString sampleJoin
      (SetDownloadingPolicy (SetServersList MapFilesDownloader.initial ["m1"]) (some ⟨false⟩))
      "u" true (fun _ => true)) = ["m1/u"] ∧
    (DownloadMapFile
      (SetDownloadingPolicy (SetServersList MapFilesDownloader.initial ["m1"]) (some ⟨false⟩))
      ⟨"D", "d.mwm", 1⟩).trace = [Effect.Download ⟨"D", "d.mwm", 1⟩] ∧
    IsDownloadingAllowed
      (DownloadMapFile (SetDownloadingPolicy MapFilesDownloader.initial (some ⟨false⟩))
        ⟨"A", "a.mwm", 1⟩) = false ∧
    (ServersListReceived sampleJoin
      (DownloadMapFile (SetDownloadingPolicy MapFilesDownloader.initial (some ⟨false⟩))
        ⟨"A", "a.mwm", 1⟩) ["m1"]).trace =
      [Effect.RunTask, Effect.Download ⟨"A", "a.mwm", 1⟩] := by
  decide

/-- C16, amended: `DownloadAsString`, `DownloadMapFile` and the completion of a
servers-list task, the quarantine replay included, do not consult the downloading
policy.  Attaching any policy before one of them gives the same state as attaching it
afterwards, so the transport requests issued and the `Download` calls made are the same
whatever `IsDownloadingAllowed` answers. -/
theorem C16_policy_not_consulted (Join : String → String → String)
    (self : MapFilesDownloader) (policy : Option DownloadingPolicy) :
    (∀ (url : String) (firstPass : Bool) (callback : ChunkCallback),
      DownloadAsString Join (SetDownloadingPolicy self policy) url firstPass callback =
        SetDownloadingPolicy (DownloadAsString Join self url firstPass callback) policy ∧
      (DownloadAsString Join (SetDownloadingPolicy self policy) url firstPass callback).trace =
        (DownloadAsString Join self url firstPass callback).trace) ∧
    (∀ queuedCountry : QueuedCountry,
      DownloadMapFile (SetDownloadingPolicy self policy) queuedCountry =
        SetDownloadingPolicy (DownloadMapFile self queuedCountry) policy ∧
      (DownloadMapFile (SetDownloadingPolicy self policy) queuedCountry).trace =
        (DownloadMapFile self queuedCountry).trace) ∧
    (∀ serversList : ServersList,
      ServersListReceived Join (SetDownloadingPolicy self policy) serversList =
        SetDownloadingPolicy (ServersListReceived Join self serversList) policy ∧
      (ServersListReceived Join (SetDownloadingPolicy self policy) serversList).trace =
        (ServersListReceived Join self serversList).trace) := by
  have hdo : ∀ (s : MapFilesDownloader) (url : String) (firstPass : Bool)
      (callback : ChunkCallback),
      doDownload Join (SetDownloadingPolicy s policy) url firstPass callback =
        SetDownloadingPolicy (doDownload Join s url firstPass callback) policy := by
    intro s url firstPass callback
    simp only [doDownload, SetDownloadingPolicy]
    split
    · rfl
    · split <;> rfl
  have hstring : ∀ (url : String) (firstPass : Bool) (callback : ChunkCallback),
      DownloadAsString Join (SetDownloadingPolicy self policy) url firstPass callback =
        SetDownloadingPolicy (DownloadAsString Join self url firstPass callback) policy := by
    intro url firstPass callback
    unfold DownloadAsString
    have h1 : (SetDownloadingPolicy self policy).m_serversList = self.m_serversList := rfl
    have h2 : (SetDownloadingPolicy self policy).m_isServersListRequested =
        self.m_isServersListRequested := rfl
    rw [h1, h2]
    split
    · exact hdo self url firstPass callback
    · split <;> rfl
  have hmap : ∀ queuedCountry : QueuedCountry,
      DownloadMapFile (SetDownloadingPolicy self policy) queuedCountry =
        SetDownloadingPolicy (DownloadMapFile self queuedCountry) policy := by
    intro queuedCountry
    simp only [DownloadMapFile, SetDownloadingPolicy]
    split
    · rfl
    · split <;> rfl
  have hdone : ∀ serversList : ServersList,
      ServersListReceived Join (SetDownloadingPolicy self policy) serversList =
        SetDownloadingPolicy (ServersListReceived Join self serversList) policy := by
    intro serversList
    unfold ServersListReceived
    have h1 : (SetDownloadingPolicy self policy).tasks = self.tasks := rfl
    rw [h1]
    split
    · rfl
    · rename_i cb rest hts
      cases cb with
      | replayQuarantine =>
        simp [onServersList, callServersListCallback, replayQuarantine_eq,
          SetDownloadingPolicy]
      | doDownload url firstPass callback =>
        have := hdo { self with tasks := rest, m_serversList := serversList } url firstPass
          callback
        simp only [onServersList, callServersListCallback, SetDownloadingPolicy] at this ⊢
        rw [this]
  refine ⟨fun url firstPass callback => ⟨hstring url firstPass callback, ?_⟩,
    fun queuedCountry => ⟨hmap queuedCountry, ?_⟩,
    fun serversList => ⟨hdone serversList, ?_⟩⟩
  · rw [hstring]
    rfl
  · rw [hmap]
    rfl
  · rw [hdone]
    rfl

/-! ## C17 -/

/-- C17: `Clear` leaves the quarantine empty, whatever it held, and a second `Clear`
right after the first gives the same state as the first alone. -/
theorem C17_clear_idempotent (self : MapFilesDownloader) :
    (Clear self).m_quarantine.m_queue = [] ∧
    (GetQueue (Clear self)).IsEmpty = true ∧
    Clear (Clear self) = Clear self := by
  simp [Clear, GetQueue, Queue.Clear, Queue.IsEmpty]

/-! ## C18 -/

/-- C18: `Remove` and `Clear` change the quarantine and nothing else.  The servers
list, the latch, the file request, the policy, the subscribers and the outstanding
servers-list tasks are as before, and the trace is as before: no `Download` is made and
no transport request is issued or dropped. -/
theorem C18_remove_clear_frame (self : MapFilesDownloader) (id : CountryId) :
    (Remove self id = { self with m_quarantine := (Remove self id).m_quarantine } ∧
     (Remove self id).m_serversList = self.m_serversList ∧
     (Remove self id).m_isServersListRequested = self.m_isServersListRequested ∧
     (Remove self id).m_fileRequest = self.m_fileRequest ∧
     (Remove self id).m_downloadingPolicy = self.m_downloadingPolicy ∧
     (Remove self id).m_subscribers = self.m_subscribers ∧
     (Remove self id).tasks = self.tasks ∧
     (Remove self id).trace = self.trace) ∧
    (Clear self = { self with m_quarantine := (Clear self).m_quarantine } ∧
     (Clear self).m_serversList = self.m_serversList ∧
     (Clear self).m_isServersListRequested = self.m_isServersListRequested ∧
     (Clear self).m_fileRequest = self.m_fileRequest ∧
     (Clear self).m_downloadingPolicy = self.m_downloadingPolicy ∧
     (Clear self).m_subscribers = self.m_subscribers ∧
     (Clear self).tasks = self.tasks ∧
     (Clear self).trace = self.trace) := by
  constructor
  · rw [Remove_eq]
    simp
  · simp [Clear]

/-! ## C19 -/

theorem doDownload_backsOfEmpty (Join : String → String → String)
    (self : MapFilesDownloader) (url : String) (firstPass : Bool) (callback : ChunkCallback) :
    backsOfEmpty (doDownload Join self url firstPass callback) = backsOfEmpty self := by
  unfold doDownload backsOfEmpty
  split
  · rfl
  · rename_i hguard
    split
    · simp
    · rename_i hlast
      exfalso
      apply hguard
      rw [List.getLast?_eq_none_iff.1 hlast]
      simp

theorem count_BackOfEmpty_map_Download (countries : List QueuedCountry) :
    (countries.map Effect.Download).count Effect.BackOfEmpty = 0 := by
  induction countries with
  | nil => rfl
  | cons c cs ih => simp [List.count_cons, ih]

theorem step_backsOfEmpty (Join : String → String → String) (self : MapFilesDownloader)
    (op : Op) : backsOfEmpty (step Join self op) = backsOfEmpty self := by
  cases op with
  | DownloadMapFile c =>
    simp only [step, DownloadMapFile]
    split
    · simp [Download, backsOfEmpty]
    · split
      · simp [RunServersListAsync, backsOfEmpty]
      · rfl
  | DownloadAsString url firstPass callback =>
    simp only [step, DownloadAsString]
    split
    · exact doDownload_backsOfEmpty Join self url firstPass callback
    · split
      · simp [RunServersListAsync, backsOfEmpty]
      · rfl
  | Remove id =>
    simp only [step, Remove]
    split <;> rfl
  | Clear => rfl
  | SetServersList l => rfl
  | SetDownloadingPolicy p => rfl
  | Subscribe sub => rfl
  | UnsubscribeAll => rfl
  | ServersListReceived l =>
    simp only [step, ServersListReceived]
    split
    · rfl
    · rename_i cb rest hts
      cases cb with
      | replayQuarantine =>
        simp [onServersList, callServersListCallback, replayQuarantine_eq, backsOfEmpty,
          count_BackOfEmpty_map_Download]
      | doDownload url firstPass callback =>
        have := doDownload_backsOfEmpty Join
          { self with tasks := rest, m_serversList := l } url firstPass callback
        simpa [onServersList, callServersListCallback, backsOfEmpty] using this
  | RequestCompleted buffer =>
    simp only [step, RequestCompleted]
    split
    · rfl
    · simp only [onRequestCompleted, backsOfEmpty]
      split <;> split <;> simp_all

/-- C19: `m_serversList.back()` is never evaluated on an empty list.  From any state,
neither `doDownload` nor any event evaluates it so, and so it has never happened in a
state reached from a fresh downloader.  In particular, when the task of a deferred
`DownloadAsString` completes with an empty list, no transport request is issued, the
chunk callback is not invoked, and the trace and `m_fileRequest` are left as they
were. -/
theorem C19_back_only_on_non_empty (Join : String → String → String)
    (self : MapFilesDownloader) (url : String) (firstPass : Bool) (callback : ChunkCallback)
    (rest : List ServersListCallback)
    (htasks : self.tasks = ServersListCallback.doDownload url firstPass callback :: rest) :
    (∀ (s : MapFilesDownloader) (u : String) (f : Bool) (c : ChunkCallback),
      backsOfEmpty (doDownload Join s u f c) = backsOfEmpty s ∧
      backsOfEmpty (DownloadAsString Join s u f c) = backsOfEmpty s) ∧
    (∀ (s : MapFilesDownloader) (op : Op), backsOfEmpty (step Join s op) = backsOfEmpty s) ∧
    (∀ ops : List Op, Effect.BackOfEmpty ∉ (run Join MapFilesDownloader.initial ops).trace) ∧
    (ServersListReceived Join self []).trace = self.trace ∧
    (ServersListReceived Join self []).m_fileRequest = self.m_fileRequest ∧
    requestsIssued (ServersListReceived Join self []) = requestsIssued self := by
  have hrun : ∀ (ops : List Op) (s : MapFilesDownloader),
      backsOfEmpty (run Join s ops) = backsOfEmpty s := by
    intro ops
    induction ops with
    | nil => intro s; rfl
    | cons op rest ih =>
      intro s
      exact (ih (step Join s op)).trans (step_backsOfEmpty Join s op)
  have hdone : ServersListReceived Join self [] =
      { self with m_serversList := [], m_isServersListRequested := false, tasks := rest } := by
    simp [ServersListReceived, htasks, onServersList, callServersListCallback, doDownload]
  refine ⟨fun s u f c => ⟨doDownload_backsOfEmpty Join s u f c,
      step_backsOfEmpty Join s (Op.DownloadAsString u f c)⟩,
    step_backsOfEmpty Join, ?_, ?_, ?_, ?_⟩
  · intro ops
    have h := hrun ops MapFilesDownloader.initial
    have h0 : backsOfEmpty MapFilesDownloader.initial = 0 := rfl
    rw [h0] at h
    exact List.count_eq_zero.1 h
  · rw [hdone]
  · rw [hdone]
  · rw [hdone]
    rfl

theorem C19_back_only_on_non_empty_witness :
    (ServersListReceived sampleJoin
      (DownloadAsString sampleJoin MapFilesDownloader.initial "u" true (fun _ => true))
      []).trace = [Effect.RunTask] :=
  (C19_back_only_on_non_empty sampleJoin
    (DownloadAsString sampleJoin MapFilesDownloader.initial "u" true (fun _ => true))
    "u" true (fun _ => true) [] rfl).2.2.2.1

/-! ## C20 -/

theorem step_serversList (Join : String → String → String) (self : MapFilesDownloader)
    (op : Op) (hop : op.assignsServersList = false) :
    (step Join self op).m_serversList = self.m_serversList := by
  cases op with
  | DownloadMapFile c =>
    simp only [step, DownloadMapFile]
    split
    · rfl
    · split <;> rfl
  | DownloadAsString url firstPass callback =>
    simp only [step, DownloadAsString]
    split
    · exact (doDownload_frame Join self url firstPass callback).1
    · split <;> rfl
  | Remove id =>
    simp only [step, Remove]
    split <;> rfl
  | Clear => rfl
  | SetServersList l => simp [Op.assignsServersList] at hop
  | SetDownloadingPolicy p => rfl
  | Subscribe sub => rfl
  | UnsubscribeAll => rfl
  | ServersListReceived l => simp [Op.assignsServersList] at hop
  | RequestCompleted buffer =>
    simp only [step, RequestCompleted]
    split
    · rfl
    · simp only [onRequestCompleted]
      split <;> split <;> simp_all

/-- C20: when an outstanding servers-list task completes, `m_serversList` is afterwards
exactly the list it delivered, whatever the callback and whatever was stored before: a
list put there by `SetServersList` while the task was outstanding is replaced, also by
an empty list.  `SetServersList` stores its argument.  No other event changes
`m_serversList`, and with no task outstanding a completion event changes nothing. -/
theorem C20_servers_list_replaced (Join : String → String → String)
    (self : MapFilesDownloader) (callback : ServersListCallback)
    (rest : List ServersListCallback) (delivered injected : ServersList)
    (htasks : self.tasks = callback :: rest) :
    (ServersListReceived Join self delivered).m_serversList = delivered ∧
    (ServersListReceived Join (SetServersList self injected) delivered).m_serversList =
      delivered ∧
    (ServersListReceived Join (SetServersList self injected) []).m_serversList = [] ∧
    (SetServersList self injected).m_serversList = injected ∧
    (∀ (s : MapFilesDownloader) (op : Op), op.assignsServersList = false →
      (step Join s op).m_serversList = s.m_serversList) ∧
    (∀ s : MapFilesDownloader, s.tasks = [] → ServersListReceived Join s delivered = s) := by
  have hdone : ∀ (s : MapFilesDownloader) (l : ServersList), s.tasks = callback :: rest →
      (ServersListReceived Join s l).m_serversList = l := by
    intro s l hs
    simp only [ServersListReceived, hs, onServersList]
    exact (callServersListCallback_frame Join _ callback).1
  refine ⟨hdone self delivered htasks, hdone _ delivered htasks, hdone _ [] htasks, rfl,
    fun s op hop => step_serversList Join s op hop, ?_⟩
  intro s hs
  simp [ServersListReceived, hs]

theorem C20_servers_list_replaced_witness :
    (ServersListReceived sampleJoin
      (SetServersList (DownloadMapFile MapFilesDownloader.initial ⟨"A", "a.mwm", 1⟩)
        ["cached"]) []).m_serversList = [] :=
  (C20_servers_list_replaced sampleJoin
    (DownloadMapFile MapFilesDownloader.initial ⟨"A", "a.mwm", 1⟩)
    ServersListCallback.replayQuarantine [] ["m1"] ["cached"] rfl).2.2.1

end storage
